import Mathlib

/-!
# Pendant HAL registry and HID keyboard edge detection

A shallow embedding of `components/pendant_hal/pendant_hal.c` (the named-pin
registry and its typed accessors) and of the keyboard part of
`main/hid_host_example.c` (`key_event_callback`, `key_found`,
`hid_host_keyboard_report_callback`), followed by theorems about them.

Conventions of the embedding:

* a `const char *` that is not NULL is the list of bytes it points to; the
  string ends at the first `0` byte, or at the end of the list;
* a nullable pointer argument is an `Option` (or the address `0` for `void *`);
* the linked list `s_pin_head` is the list of its pin records, head first;
* the outcome of `heap_caps_malloc` and `strdup` is an explicit Boolean argument;
* static variables are fields of an explicit state that every function threads.
-/

namespace Pendant

/-! ## Registry: data model -/

/-- The type `esp_err_t` of `esp_err.h`. -/
abbrev esp_err_t := Int

/-- The value `ESP_OK` of `esp_err.h` (a header of the SDK). -/
def ESP_OK : esp_err_t := 0
/-- The value `ESP_ERR_NO_MEM` of `esp_err.h`. -/
def ESP_ERR_NO_MEM : esp_err_t := 0x101
/-- The value `ESP_ERR_INVALID_ARG` of `esp_err.h`. -/
def ESP_ERR_INVALID_ARG : esp_err_t := 0x102
/-- The value `ESP_ERR_INVALID_STATE` of `esp_err.h`. -/
def ESP_ERR_INVALID_STATE : esp_err_t := 0x103

/-- The enumeration `hal_type_t` of `pendant_hal.h`. -/
inductive hal_type_t where
  | HAL_BIT
  | HAL_FLOAT
  | HAL_S32
  | HAL_U32
  deriving DecidableEq, Repr

/-- Pin flag `HAL_IN` is `1 << 0`. -/
def HAL_IN : Nat := 1 <<< 0
/-- Pin flag `HAL_OUT` is `1 << 1`. -/
def HAL_OUT : Nat := 1 <<< 1
/-- Pin flag `HAL_IO` is `HAL_IN | HAL_OUT`. -/
def HAL_IO : Nat := HAL_IN ||| HAL_OUT

/-- The record `struct hal_pin_t`; the `next` field is the tail of the list that holds it. -/
structure hal_pin_t where
  name : List Nat
  type : hal_type_t
  data_ptr : Nat
  flags : Nat
  deriving DecidableEq, Repr

/-- The static `s_pin_head`: the linked list of pins, most recent first. -/
abbrev Registry := List hal_pin_t

/-- The libc `strcmp` on two byte buffers: the difference of the first pair of bytes that
differ, `0` when both strings end together. A buffer ends at its first `0` byte. -/
def strcmp : List Nat → List Nat → Int
  | [], [] => 0
  | [], b :: _ => 0 - (b : Int)
  | a :: _, [] => (a : Int)
  | a :: as, b :: bs =>
    if a ≠ b then (a : Int) - (b : Int)
    else if a = 0 then 0
    else strcmp as bs

/-- The libc `strdup` when it succeeds: a copy of the bytes before the terminator. -/
def strdup (s : List Nat) : List Nat :=
  s.takeWhile (fun c => c != 0)

/-! ## Registry: operations -/

/-- Source `hal_init`: `s_pin_head = NULL; return ESP_OK;`. -/
def hal_init (_s_pin_head : Registry) : esp_err_t × Registry :=
  (ESP_OK, [])

/-- Source `hal_find_pin`: walk the list from the head and return the first pin whose
name compares equal to `name`. The registry is only read. -/
def hal_find_pin : Registry → List Nat → Option hal_pin_t
  | [], _ => none
  | curr :: next, name =>
    if strcmp curr.name name = 0 then some curr
    else hal_find_pin next name

/-- Source `hal_create_pin`. `malloc_ok` and `strdup_ok` say whether `heap_caps_malloc`
and `strdup` return non-NULL when the function reaches them. -/
def hal_create_pin (malloc_ok strdup_ok : Bool) (s_pin_head : Registry)
    (name : Option (List Nat)) (type : hal_type_t) (data_ptr : Nat) (dir : Nat) :
    esp_err_t × Registry :=
  match name with
  | none => (ESP_ERR_INVALID_ARG, s_pin_head)
  | some name =>
    if data_ptr = 0 then (ESP_ERR_INVALID_ARG, s_pin_head)
    else if hal_find_pin s_pin_head name ≠ none then (ESP_ERR_INVALID_STATE, s_pin_head)
    else if malloc_ok = false then (ESP_ERR_NO_MEM, s_pin_head)
    else if strdup_ok = false then (ESP_ERR_NO_MEM, s_pin_head)
    else
      (ESP_OK,
        { name := strdup name, type := type, data_ptr := data_ptr, flags := dir } :: s_pin_head)

/-- One call of the registration API, with the allocator outcomes a creation meets. -/
inductive hal_call where
  | init
  | create (name : Option (List Nat)) (type : hal_type_t) (data_ptr : Nat) (dir : Nat)
      (malloc_ok strdup_ok : Bool)
  | find (name : List Nat)
  deriving DecidableEq, Repr

/-- The registry after one API call. -/
def hal_step (st : Registry) : hal_call → Registry
  | .init => (hal_init st).2
  | .create name type data_ptr dir m s => (hal_create_pin m s st name type data_ptr dir).2
  | .find _ => st

/-- The registry after a sequence of API calls, oldest call first. -/
def hal_run (st : Registry) (calls : List hal_call) : Registry :=
  calls.foldl hal_step st

/-- A call is a creation that returns `ESP_OK` in state `st` for a name equal to `name`. -/
def creates (st : Registry) (name : List Nat) : hal_call → Prop
  | .create (some n) type data_ptr dir m s =>
    strcmp n name = 0 ∧ (hal_create_pin m s st (some n) type data_ptr dir).1 = ESP_OK
  | _ => False

/-- Some call of `calls` is a successful creation of `name`, and no `hal_init` follows it:
the name was registered since the last initialisation. `base` is the state the calls start in. -/
def RegisteredSince (base : Registry) (calls : List hal_call) (name : List Nat) : Prop :=
  ∃ pre c post, calls = pre ++ c :: post ∧ creates (hal_run base pre) name c ∧
    hal_call.init ∉ post

/-- Names in the registry are pairwise different as C strings. -/
def NamesUnique (st : Registry) : Prop :=
  st.Pairwise (fun p q => strcmp p.name q.name ≠ 0)

/-! ## Accessors -/

/-- Byte-addressed memory: the byte held at every address. The storage a pin refers to is
owned by the caller and lives here. -/
abbrev Mem := Nat → Nat

/-- A `float` as its 32-bit object representation; the accessors only copy it. -/
abbrev float32 := Nat

/-- Store of a 32-bit object: four bytes, least significant first. -/
def store32 (mem : Mem) (addr val : Nat) : Mem :=
  fun a => if addr ≤ a ∧ a < addr + 4 then (val / 256 ^ (a - addr)) % 256 else mem a

/-- Load of a 32-bit object: four bytes, least significant first. -/
def load32 (mem : Mem) (addr : Nat) : Nat :=
  mem addr % 256 + (mem (addr + 1) % 256) * 256 + (mem (addr + 2) % 256) * 65536 +
    (mem (addr + 3) % 256) * 16777216

/-- Source `hal_set_bit`: write the byte of a `bool` when the pin is non-NULL, of kind
`HAL_BIT` and has a non-NULL storage pointer; nothing otherwise. -/
def hal_set_bit (pin : Option hal_pin_t) (value : Bool) (mem : Mem) : Mem :=
  match pin with
  | none => mem
  | some pin =>
    if pin.type = .HAL_BIT ∧ pin.data_ptr ≠ 0 then
      Function.update mem pin.data_ptr (if value then 1 else 0)
    else mem

/-- Source `hal_get_bit`: read the `bool` under the same guard, `false` otherwise. -/
def hal_get_bit (pin : Option hal_pin_t) (mem : Mem) : Bool :=
  match pin with
  | none => false
  | some pin =>
    if pin.type = .HAL_BIT ∧ pin.data_ptr ≠ 0 then decide (mem pin.data_ptr ≠ 0)
    else false

/-- Source `hal_set_float`: write the `float` when the pin is non-NULL, of kind `HAL_FLOAT`
and has a non-NULL storage pointer; nothing otherwise. -/
def hal_set_float (pin : Option hal_pin_t) (value : float32) (mem : Mem) : Mem :=
  match pin with
  | none => mem
  | some pin =>
    if pin.type = .HAL_FLOAT ∧ pin.data_ptr ≠ 0 then store32 mem pin.data_ptr value
    else mem

/-- Source `hal_get_float`: read the `float` under the same guard, `0.0f` (all bits zero)
otherwise. -/
def hal_get_float (pin : Option hal_pin_t) (mem : Mem) : float32 :=
  match pin with
  | none => 0
  | some pin =>
    if pin.type = .HAL_FLOAT ∧ pin.data_ptr ≠ 0 then load32 mem pin.data_ptr
    else 0

/-! ## Keyboard: data model -/

/-- Modelled from the spec: the SDK header `usb/hid_usage_keyboard.h` is not among the
sources. `HID_KEYBOARD_KEY_MAX` is the capacity of the key-code array of the "fixed-layout
keyboard boot report": six entries. -/
abbrev HID_KEYBOARD_KEY_MAX : Nat := 6

/-- Modelled from the spec: the SDK header `usb/hid_usage_keyboard.h` is not among the
sources. `HID_KEY_ERROR_UNDEFINED` is the "designated undefined key-code sentinel", usage
`0x03`, which follows no-press `0x00`, roll-over `0x01` and POST-fail `0x02`. -/
def HID_KEY_ERROR_UNDEFINED : Nat := 0x03

/-- Modelled from the spec: the SDK header `usb/hid_usage_keyboard.h` is not among the
sources. `HID_KEY_1` is the usage of the key `1`, `0x1E` as the comment in
`key_event_callback` says. -/
def HID_KEY_1 : Nat := 0x1E
/-- Modelled from the spec: the SDK header `usb/hid_usage_keyboard.h` is not among the
sources. `HID_KEY_2` is the usage of the key `2`, `0x1F` as the comment in
`key_event_callback` says. -/
def HID_KEY_2 : Nat := 0x1F
/-- Modelled from the spec: the SDK header `usb/hid_usage_keyboard.h` is not among the
sources. `HID_KEY_3` is the usage of the key `3`, `0x20`. -/
def HID_KEY_3 : Nat := 0x20
/-- Modelled from the spec: the SDK header `usb/hid_usage_keyboard.h` is not among the
sources. `HID_KEY_4` is the usage of the key `4`, `0x21`. -/
def HID_KEY_4 : Nat := 0x21

/-- Modelled from the spec: the SDK header `usb/hid_usage_keyboard.h` is not among the
sources. The size of `hid_keyboard_input_report_boot_t`, the "fixed-layout keyboard boot
report": one modifier byte, one reserved byte and the six key codes. -/
def sizeof_hid_keyboard_input_report_boot_t : Nat := 8

/-- A `uint8_t [HID_KEYBOARD_KEY_MAX]` array. -/
abbrev KeyArray := Fin HID_KEYBOARD_KEY_MAX → Nat

/-- Modelled from the spec: the SDK header `usb/hid_usage_keyboard.h` is not among the
sources. The boot report the buffer `data` is read as: the modifier byte (`modifier.val`),
the reserved byte and the key-code array `key`. -/
structure hid_keyboard_input_report_boot_t where
  modifier : Nat
  reserved : Nat
  key : KeyArray

/-- The enumeration `enum key_state`. -/
inductive key_state where
  | KEY_STATE_PRESSED
  | KEY_STATE_RELEASED
  deriving DecidableEq, Repr

/-- The record `key_event_t`. -/
structure key_event_t where
  state : key_state
  modifier : Nat
  key_code : Nat
  deriving DecidableEq, Repr

/-- The static variables of `hid_host_example.c` that the keyboard path touches: the four
softkey bits, the last raw key code, and `prev_keys` of the report callback (all zero at
start). -/
structure AppState where
  s_hal_softkey_1 : Bool
  s_hal_softkey_2 : Bool
  s_hal_softkey_3 : Bool
  s_hal_softkey_4 : Bool
  s_hal_last_keycode : Int
  prev_keys : KeyArray

/-- The static initialisers: the bits `false`, the key code `0`, `prev_keys` `{0}`. -/
def AppState.initial : AppState :=
  { s_hal_softkey_1 := false, s_hal_softkey_2 := false, s_hal_softkey_3 := false,
    s_hal_softkey_4 := false, s_hal_last_keycode := 0, prev_keys := fun _ => 0 }

/-! ## Keyboard: operations -/

/-- Source `key_event_callback`: record the raw key code, then switch on it, setting the
mapped softkey on a press and clearing it otherwise. -/
def key_event_callback (st : AppState) (key_event : key_event_t) : AppState :=
  let st := { st with s_hal_last_keycode := (key_event.key_code : Int) }
  if key_event.state = .KEY_STATE_PRESSED then
    if key_event.key_code = HID_KEY_1 then { st with s_hal_softkey_1 := true }
    else if key_event.key_code = HID_KEY_2 then { st with s_hal_softkey_2 := true }
    else if key_event.key_code = HID_KEY_3 then { st with s_hal_softkey_3 := true }
    else if key_event.key_code = HID_KEY_4 then { st with s_hal_softkey_4 := true }
    else st
  else
    if key_event.key_code = HID_KEY_1 then { st with s_hal_softkey_1 := false }
    else if key_event.key_code = HID_KEY_2 then { st with s_hal_softkey_2 := false }
    else if key_event.key_code = HID_KEY_3 then { st with s_hal_softkey_3 := false }
    else if key_event.key_code = HID_KEY_4 then { st with s_hal_softkey_4 := false }
    else st

/-- Source `key_found`: does `key` occur among `src[0 .. length-1]`; the array carries its
`length`, which every call site sets to the array size. -/
def key_found {length : Nat} (src : Fin length → Nat) (key : Nat) : Bool :=
  (List.finRange length).any (fun i => src i == key)

/-- A call of `key_event_callback` from the report callback: the state it leaves, and the
event appended to the record of events dispatched so far. -/
def dispatch (s : AppState × List key_event_t) (key_event : key_event_t) :
    AppState × List key_event_t :=
  (key_event_callback s.1 key_event, s.2 ++ [key_event])

/-- One iteration of the `for` loop of `hid_host_keyboard_report_callback`: the release test
on `prev_keys[i]`, then the press test on `kb_report->key[i]`. -/
def report_loop_body (kb_report : hid_keyboard_input_report_boot_t)
    (s : AppState × List key_event_t) (i : Fin HID_KEYBOARD_KEY_MAX) :
    AppState × List key_event_t :=
  let s1 :=
    if s.1.prev_keys i > HID_KEY_ERROR_UNDEFINED ∧
        key_found kb_report.key (s.1.prev_keys i) = false then
      dispatch s { key_code := s.1.prev_keys i, modifier := 0, state := .KEY_STATE_RELEASED }
    else s
  if kb_report.key i > HID_KEY_ERROR_UNDEFINED ∧
      key_found s1.1.prev_keys (kb_report.key i) = false then
    dispatch s1 { key_code := kb_report.key i, modifier := kb_report.modifier,
                  state := .KEY_STATE_PRESSED }
  else s1

/-- Source `hid_host_keyboard_report_callback`. The `int` length is compared with a
`size_t`, hence as a 32-bit unsigned value; a short report returns at once. Otherwise the
loop runs over the six slots and `memcpy` replaces `prev_keys` by the report's keys. The
result is the new state and the events passed to `key_event_callback`, in order. -/
def hid_host_keyboard_report_callback (st : AppState)
    (kb_report : hid_keyboard_input_report_boot_t) (length : Int) :
    AppState × List key_event_t :=
  if length % 4294967296 < (sizeof_hid_keyboard_input_report_boot_t : Int) then (st, [])
  else
    let s := (List.finRange HID_KEYBOARD_KEY_MAX).foldl (report_loop_body kb_report) (st, [])
    ({ s.1 with prev_keys := kb_report.key }, s.2)

/-- The events of slot `i` written out: the release of `prev[i]`, then the press of
`key[i]`, each when its test holds. -/
def slot_events (prev : KeyArray) (kb_report : hid_keyboard_input_report_boot_t)
    (i : Fin HID_KEYBOARD_KEY_MAX) : List key_event_t :=
  (if prev i > HID_KEY_ERROR_UNDEFINED ∧ key_found kb_report.key (prev i) = false then
      [{ key_code := prev i, modifier := 0, state := .KEY_STATE_RELEASED }]
    else []) ++
  (if kb_report.key i > HID_KEY_ERROR_UNDEFINED ∧ key_found prev (kb_report.key i) = false then
      [{ key_code := kb_report.key i, modifier := kb_report.modifier,
         state := .KEY_STATE_PRESSED }]
    else [])

/-- The events of one full-length report, slot after slot. -/
def report_events (prev : KeyArray) (kb_report : hid_keyboard_input_report_boot_t) :
    List key_event_t :=
  (List.finRange HID_KEYBOARD_KEY_MAX).flatMap (slot_events prev kb_report)

/-- The length is that of a full report: an `int` not below the size of the boot report. -/
def FullLength (length : Int) : Prop :=
  (sizeof_hid_keyboard_input_report_boot_t : Int) ≤ length ∧ length < 2147483648

instance (length : Int) : Decidable (FullLength length) := by
  unfold FullLength; infer_instance

/-- The key code `k` occurs in the array. -/
def Occurs (a : KeyArray) (k : Nat) : Prop := ∃ i, a i = k

/-- The four softkey bits by number (`0` is softkey 1). -/
def AppState.softkey (st : AppState) : Fin 4 → Bool
  | 0 => st.s_hal_softkey_1
  | 1 => st.s_hal_softkey_2
  | 2 => st.s_hal_softkey_3
  | 3 => st.s_hal_softkey_4

/-- The key codes `HID_KEY_1 .. HID_KEY_4` by softkey number. -/
def softkey_code : Fin 4 → Nat
  | 0 => HID_KEY_1
  | 1 => HID_KEY_2
  | 2 => HID_KEY_3
  | 3 => HID_KEY_4

/-- The value a single bit takes along a list of events when it is set by a press of `c`
and cleared by a release of `c`. -/
def bit_after (c : Nat) (b : Bool) (evs : List key_event_t) : Bool :=
  evs.foldl (fun b e => if e.key_code = c then decide (e.state = .KEY_STATE_PRESSED) else b) b

/-! ## Application: wiring of the registry and the event loop -/

/-- The bytes of a string literal passed as a `const char *`. -/
def cstr (s : String) : List Nat :=
  s.toList.map Char.toNat

/-- The addresses of the static variables that `app_main` binds to pins:
`&s_hal_softkey_1` .. `&s_hal_softkey_4` and `&s_hal_last_keycode`. -/
structure AppLayout where
  addr_softkey_1 : Nat
  addr_softkey_2 : Nat
  addr_softkey_3 : Nat
  addr_softkey_4 : Nat
  addr_last_keycode : Nat

/-- The five variables are distinct objects: no address is NULL, the four `bool` bytes are
pairwise different, and none of them lies in the four bytes of the `int32_t`. -/
def AppLayout.WellFormed (L : AppLayout) : Prop :=
  L.addr_softkey_1 ≠ 0 ∧ L.addr_softkey_2 ≠ 0 ∧ L.addr_softkey_3 ≠ 0 ∧ L.addr_softkey_4 ≠ 0 ∧
  L.addr_last_keycode ≠ 0 ∧
  L.addr_softkey_1 ≠ L.addr_softkey_2 ∧ L.addr_softkey_1 ≠ L.addr_softkey_3 ∧
  L.addr_softkey_1 ≠ L.addr_softkey_4 ∧ L.addr_softkey_2 ≠ L.addr_softkey_3 ∧
  L.addr_softkey_2 ≠ L.addr_softkey_4 ∧ L.addr_softkey_3 ≠ L.addr_softkey_4 ∧
  ¬ (L.addr_last_keycode ≤ L.addr_softkey_1 ∧ L.addr_softkey_1 < L.addr_last_keycode + 4) ∧
  ¬ (L.addr_last_keycode ≤ L.addr_softkey_2 ∧ L.addr_softkey_2 < L.addr_last_keycode + 4) ∧
  ¬ (L.addr_last_keycode ≤ L.addr_softkey_3 ∧ L.addr_softkey_3 < L.addr_last_keycode + 4) ∧
  ¬ (L.addr_last_keycode ≤ L.addr_softkey_4 ∧ L.addr_softkey_4 < L.addr_last_keycode + 4)

instance (L : AppLayout) : Decidable L.WellFormed := by
  unfold AppLayout.WellFormed; infer_instance

/-- The memory as the static variables of a state fill it: one byte, `1` or `0`, for each
softkey `bool`, the four bytes of the `int32_t` key code, and `base` everywhere else. -/
def AppState.mem (L : AppLayout) (base : Mem) (st : AppState) : Mem :=
  fun a =>
    if a = L.addr_softkey_1 then (if st.s_hal_softkey_1 then 1 else 0)
    else if a = L.addr_softkey_2 then (if st.s_hal_softkey_2 then 1 else 0)
    else if a = L.addr_softkey_3 then (if st.s_hal_softkey_3 then 1 else 0)
    else if a = L.addr_softkey_4 then (if st.s_hal_softkey_4 then 1 else 0)
    else if L.addr_last_keycode ≤ a ∧ a < L.addr_last_keycode + 4 then
      ((st.s_hal_last_keycode % 4294967296).toNat / 256 ^ (a - L.addr_last_keycode)) % 256
    else base a

/-- Modelled from the spec: the SDK macro `ESP_ERROR_CHECK` is not among the sources.
"Registration failures are fatal to startup": the program goes on with the new registry when
the code is `ESP_OK` and aborts (`none`) otherwise. -/
def ESP_ERROR_CHECK (r : esp_err_t × Registry) : Option Registry :=
  if r.1 = ESP_OK then some r.2 else none

/-- Source `app_main`, steps 1 and 2: `hal_init`, then the five `hal_create_pin` calls, each
under `ESP_ERROR_CHECK`. `alloc k` holds the allocator outcomes of creation `k`. -/
def app_main_hal (L : AppLayout) (alloc : Fin 5 → Bool × Bool) (s_pin_head : Registry) :
    Option Registry := do
  let s0 ← ESP_ERROR_CHECK (hal_init s_pin_head)
  let s1 ← ESP_ERROR_CHECK (hal_create_pin (alloc 0).1 (alloc 0).2 s0
    (some (cstr "pendant.softkey.1")) .HAL_BIT L.addr_softkey_1 HAL_IO)
  let s2 ← ESP_ERROR_CHECK (hal_create_pin (alloc 1).1 (alloc 1).2 s1
    (some (cstr "pendant.softkey.2")) .HAL_BIT L.addr_softkey_2 HAL_IO)
  let s3 ← ESP_ERROR_CHECK (hal_create_pin (alloc 2).1 (alloc 2).2 s2
    (some (cstr "pendant.softkey.3")) .HAL_BIT L.addr_softkey_3 HAL_IO)
  let s4 ← ESP_ERROR_CHECK (hal_create_pin (alloc 3).1 (alloc 3).2 s3
    (some (cstr "pendant.softkey.4")) .HAL_BIT L.addr_softkey_4 HAL_IO)
  let s5 ← ESP_ERROR_CHECK (hal_create_pin (alloc 4).1 (alloc 4).2 s4
    (some (cstr "hw.kb.last_keycode")) .HAL_S32 L.addr_last_keycode HAL_IN)
  pure s5

/-- The addresses `&s_hal_softkey_1` .. `&s_hal_softkey_4` by softkey number. -/
def AppLayout.addr_softkey (L : AppLayout) : Fin 4 → Nat
  | 0 => L.addr_softkey_1
  | 1 => L.addr_softkey_2
  | 2 => L.addr_softkey_3
  | 3 => L.addr_softkey_4

/-- The names `pendant.softkey.1` .. `pendant.softkey.4` by softkey number. -/
def softkey_name : Fin 4 → List Nat
  | 0 => cstr "pendant.softkey.1"
  | 1 => cstr "pendant.softkey.2"
  | 2 => cstr "pendant.softkey.3"
  | 3 => cstr "pendant.softkey.4"

/-- The enumeration `app_event_group_t`. -/
inductive app_event_group_t where
  | APP_EVENT
  | APP_EVENT_HID_HOST
  deriving DecidableEq, Repr

/-- The record `app_event_queue_t`: the tag and the fields of `hid_host_device`. -/
structure app_event_queue_t where
  event_group : app_event_group_t
  handle : Nat
  event : Nat
  arg : Nat
  deriving DecidableEq, Repr

/-- A call `hid_host_device_event(handle, event, arg)` made by the event loop. -/
structure device_event_call where
  handle : Nat
  event : Nat
  arg : Nat
  deriving DecidableEq, Repr

/-- The call the loop makes for a lifecycle envelope. -/
def forward (evt : app_event_queue_t) : device_event_call :=
  { handle := evt.handle, event := evt.event, arg := evt.arg }

/-- Source `app_main`, step 5, the `while (1)` loop, run on what the successive
`xQueueReceive` calls deliver (`none` when a call returns false). The result is the list of
`hid_host_device_event` calls in order, and whether the loop has left through `break`; an
exhausted list leaves the loop blocked in `xQueueReceive`. -/
def app_main_loop : List (Option app_event_queue_t) → List device_event_call × Bool
  | [] => ([], false)
  | none :: rest => app_main_loop rest
  | some evt_queue :: rest =>
    if evt_queue.event_group = .APP_EVENT then ([], true)
    else if evt_queue.event_group = .APP_EVENT_HID_HOST then
      (forward evt_queue :: (app_main_loop rest).1, (app_main_loop rest).2)
    else app_main_loop rest

/-- A delivery is the cancellation envelope. -/
def is_cancel (d : Option app_event_queue_t) : Bool :=
  match d with
  | some evt => decide (evt.event_group = .APP_EVENT)
  | none => false

/-- The calls owed to the lifecycle envelopes of a list of deliveries, in order. -/
def lifecycle_calls (ds : List (Option app_event_queue_t)) : List device_event_call :=
  ds.filterMap (fun d =>
    match d with
    | some evt => if evt.event_group = .APP_EVENT_HID_HOST then some (forward evt) else none
    | none => none)

/-! ## Keyboard: sequences of reports -/

/-- A length the caller can pass: the byte count of a report, as a non-negative `int`. -/
def ValidLength (length : Int) : Prop :=
  0 ≤ length ∧ length < 2147483648

instance (length : Int) : Decidable (ValidLength length) := by
  unfold ValidLength; infer_instance

/-- The state after a sequence of reports, oldest first, each with its length. -/
def run_reports (st : AppState) (reports : List (hid_keyboard_input_report_boot_t × Int)) :
    AppState :=
  reports.foldl (fun st p => (hid_host_keyboard_report_callback st p.1 p.2).1) st

/-- The most recent report of full length in a sequence, `acc` when there is none. -/
def last_full_report (acc : Option hid_keyboard_input_report_boot_t)
    (reports : List (hid_keyboard_input_report_boot_t × Int)) :
    Option hid_keyboard_input_report_boot_t :=
  reports.foldl
    (fun acc p =>
      if (sizeof_hid_keyboard_input_report_boot_t : Int) ≤ p.2 then some p.1 else acc) acc

/-! ## Registry: lemmas -/

theorem strcmp_eq_zero_iff (a b : List Nat) : strcmp a b = 0 ↔ strdup a = strdup b := by
  induction a generalizing b with
  | nil =>
    cases b with
    | nil => simp [strcmp, strdup]
    | cons y ys =>
      by_cases hy : y = 0
      · simp [strcmp, strdup, hy]
      · simp [strcmp, strdup, hy]
  | cons x xs ih =>
    cases b with
    | nil =>
      by_cases hx : x = 0
      · simp [strcmp, strdup, hx]
      · simp [strcmp, strdup, hx]
    | cons y ys =>
      by_cases hxy : x = y
      · subst hxy
        by_cases hx : x = 0
        · simp [strcmp, strdup, hx]
        · have := ih ys
          simp [strcmp, strdup, hx] at this ⊢
          exact this
      · have hne : (x : Int) - (y : Int) ≠ 0 := by omega
        by_cases hx : x = 0 <;> by_cases hy : y = 0 <;>
          simp [strcmp, strdup, List.takeWhile_cons, hx, hy, hxy, hne]
        exact fun h => hy h.symm

theorem strdup_strdup (a : List Nat) : strdup (strdup a) = strdup a := by
  induction a with
  | nil => rfl
  | cons x xs ih =>
    by_cases hx : x = 0
    · simp [strdup, hx]
    · simp [strdup, hx] at ih ⊢
      exact ih

theorem strcmp_strdup_left (a b : List Nat) : strcmp (strdup a) b = 0 ↔ strcmp a b = 0 := by
  rw [strcmp_eq_zero_iff, strcmp_eq_zero_iff, strdup_strdup]

theorem strcmp_comm_zero (a b : List Nat) : strcmp a b = 0 ↔ strcmp b a = 0 := by
  rw [strcmp_eq_zero_iff, strcmp_eq_zero_iff]; exact eq_comm

theorem strcmp_congr_right {a b : List Nat} (h : strcmp a b = 0) (c : List Nat) :
    strcmp c a = 0 ↔ strcmp c b = 0 := by
  rw [strcmp_eq_zero_iff] at h
  rw [strcmp_eq_zero_iff, strcmp_eq_zero_iff, h]

theorem hal_find_pin_some {st : Registry} {name : List Nat} {p : hal_pin_t}
    (h : hal_find_pin st name = some p) : p ∈ st ∧ strcmp p.name name = 0 := by
  induction st with
  | nil => simp [hal_find_pin] at h
  | cons q qs ih =>
    unfold hal_find_pin at h
    split at h
    · cases h; simp_all
    · have := ih h; simp_all

theorem hal_find_pin_eq_none {st : Registry} {name : List Nat} :
    hal_find_pin st name = none ↔ ∀ p ∈ st, strcmp p.name name ≠ 0 := by
  induction st with
  | nil => simp [hal_find_pin]
  | cons q qs ih =>
    unfold hal_find_pin
    split <;> simp_all

theorem hal_create_pin_snd_cases (m s : Bool) (st : Registry) (name : Option (List Nat))
    (type : hal_type_t) (data_ptr dir : Nat) :
    ((hal_create_pin m s st name type data_ptr dir).1 ≠ ESP_OK ∧
      (hal_create_pin m s st name type data_ptr dir).2 = st) ∨
    (∃ n, name = some n ∧ hal_find_pin st n = none ∧
      (hal_create_pin m s st name type data_ptr dir).1 = ESP_OK ∧
      (hal_create_pin m s st name type data_ptr dir).2 =
        { name := strdup n, type := type, data_ptr := data_ptr, flags := dir } :: st) := by
  unfold hal_create_pin
  cases name with
  | none => left; simp [ESP_OK, ESP_ERR_INVALID_ARG]
  | some n =>
    by_cases h1 : data_ptr = 0
    · left; simp [h1, ESP_OK, ESP_ERR_INVALID_ARG]
    · by_cases h2 : hal_find_pin st n = none
      · cases m <;> cases s <;> simp [h1, h2, ESP_OK, ESP_ERR_NO_MEM]
      · left; simp [h1, h2, ESP_OK, ESP_ERR_INVALID_STATE]

theorem hal_step_namesUnique (st : Registry) (c : hal_call) (h : NamesUnique st) :
    NamesUnique (hal_step st c) := by
  cases c with
  | init => simp [hal_step, hal_init, NamesUnique]
  | find n => simpa [hal_step] using h
  | create name type data_ptr dir m s =>
    rcases hal_create_pin_snd_cases m s st name type data_ptr dir with ⟨_, h2⟩ | ⟨n, _, hn, _, h2⟩
    · simpa [hal_step, h2] using h
    · simp only [hal_step, h2, NamesUnique, List.pairwise_cons]
      refine ⟨fun q hq => ?_, h⟩
      have := hal_find_pin_eq_none.mp hn q hq
      intro h0
      exact this ((strcmp_comm_zero _ _).mp ((strcmp_strdup_left _ _).mp h0))

theorem hal_run_namesUnique (calls : List hal_call) (st : Registry) (h : NamesUnique st) :
    NamesUnique (hal_run st calls) := by
  induction calls generalizing st with
  | nil => simpa [hal_run] using h
  | cons c cs ih => exact ih _ (hal_step_namesUnique st c h)

theorem hal_run_snoc (base : Registry) (cs : List hal_call) (c : hal_call) :
    hal_run base (cs ++ [c]) = hal_step (hal_run base cs) c := by
  simp [hal_run, List.foldl_append]

theorem registeredSince_snoc (base : Registry) (cs : List hal_call) (c : hal_call)
    (name : List Nat) :
    RegisteredSince base (cs ++ [c]) name ↔
      creates (hal_run base cs) name c ∨ (RegisteredSince base cs name ∧ c ≠ hal_call.init) := by
  constructor
  · rintro ⟨pre, x, post, heq, hx, hpost⟩
    rcases List.eq_nil_or_concat post with hnil | ⟨post', l, hl⟩
    · subst hnil
      obtain ⟨h1, h2⟩ := List.append_inj' heq rfl
      simp only [List.cons.injEq, and_true] at h2
      subst h1; subst h2
      exact Or.inl hx
    · subst hl
      have heq' : cs ++ [c] = (pre ++ x :: post') ++ [l] := by simpa using heq
      obtain ⟨h1, h2⟩ := List.append_inj' heq' rfl
      simp only [List.cons.injEq, and_true] at h2
      subst h2
      refine Or.inr ⟨⟨pre, x, post', h1, hx, ?_⟩, ?_⟩
      · intro hmem; exact hpost (by simp [hmem])
      · intro hc; exact hpost (by simp [hc])
  · rintro (hc | ⟨⟨pre, x, post, heq, hx, hpost⟩, hc⟩)
    · exact ⟨cs, c, [], rfl, hc, by simp⟩
    · refine ⟨pre, x, post ++ [c], by simp [heq], hx, ?_⟩
      simp only [List.mem_append, List.mem_singleton, not_or]
      exact ⟨hpost, fun h => hc h.symm⟩

theorem hal_find_pin_iff_registered (calls : List hal_call) (name : List Nat) :
    hal_find_pin (hal_run [] calls) name ≠ none ↔ RegisteredSince [] calls name := by
  induction calls using List.reverseRecOn with
  | nil =>
    simp only [hal_run, List.foldl_nil, hal_find_pin, ne_eq, not_true_eq_false, false_iff]
    rintro ⟨pre, c, post, heq, _⟩
    simp at heq
  | append_singleton cs c ih =>
    rw [hal_run_snoc, registeredSince_snoc]
    cases c with
    | init => simp [hal_step, hal_init, hal_find_pin, creates]
    | find n => simpa [hal_step, creates] using ih
    | create nm type data_ptr dir m s =>
      rcases hal_create_pin_snd_cases m s (hal_run [] cs) nm type data_ptr dir with
        ⟨h1, h2⟩ | ⟨n, hnm, _, h1, h2⟩
      · have hno : ¬ creates (hal_run [] cs) name (.create nm type data_ptr dir m s) := by
          cases nm with
          | none => simp [creates]
          | some n => simp only [creates, not_and]; exact fun _ => h1
        simp only [hal_step, h2, hno, false_or, ne_eq, not_false_eq_true, and_true,
          reduceCtorEq]
        exact ih
      · subst hnm
        simp only [hal_step, h2, creates, h1, and_true, ne_eq, not_false_eq_true,
          reduceCtorEq]
        unfold hal_find_pin
        by_cases hs : strcmp n name = 0
        · simp [hs, strcmp_strdup_left]
        · simp only [strcmp_strdup_left, hs, if_false, false_or]
          exact ih

/-! ## Keyboard: lemmas -/

theorem key_found_iff {n : Nat} (src : Fin n → Nat) (k : Nat) :
    key_found src k = true ↔ ∃ i, src i = k := by
  simp [key_found, List.any_eq_true, List.mem_finRange]

theorem key_found_eq_false_iff {n : Nat} (src : Fin n → Nat) (k : Nat) :
    key_found src k = false ↔ ¬ ∃ i, src i = k := by
  rw [← key_found_iff]; simp

theorem key_event_callback_prev_keys (st : AppState) (e : key_event_t) :
    (key_event_callback st e).prev_keys = st.prev_keys := by
  unfold key_event_callback
  simp only
  split_ifs <;> rfl

theorem report_loop_body_eq (r : hid_keyboard_input_report_boot_t)
    (s : AppState × List key_event_t) (i : Fin HID_KEYBOARD_KEY_MAX) :
    report_loop_body r s i =
      ((slot_events s.1.prev_keys r i).foldl key_event_callback s.1,
        s.2 ++ slot_events s.1.prev_keys r i) := by
  unfold report_loop_body slot_events dispatch
  by_cases h1 : s.1.prev_keys i > HID_KEY_ERROR_UNDEFINED ∧
      key_found r.key (s.1.prev_keys i) = false <;>
    by_cases h2 : r.key i > HID_KEY_ERROR_UNDEFINED ∧
      key_found s.1.prev_keys (r.key i) = false <;>
    simp [h1, h2, key_event_callback_prev_keys]

theorem foldl_key_event_callback_prev_keys (evs : List key_event_t) (st : AppState) :
    (evs.foldl key_event_callback st).prev_keys = st.prev_keys := by
  induction evs generalizing st with
  | nil => rfl
  | cons e es ih => simp [List.foldl_cons, ih, key_event_callback_prev_keys]

theorem report_loop_eq (r : hid_keyboard_input_report_boot_t)
    (l : List (Fin HID_KEYBOARD_KEY_MAX)) (s : AppState × List key_event_t) :
    l.foldl (report_loop_body r) s =
      ((l.flatMap (slot_events s.1.prev_keys r)).foldl key_event_callback s.1,
        s.2 ++ l.flatMap (slot_events s.1.prev_keys r)) := by
  induction l generalizing s with
  | nil => simp
  | cons i is ih =>
    rw [List.foldl_cons, ih, report_loop_body_eq]
    simp [List.flatMap_cons, List.foldl_append, foldl_key_event_callback_prev_keys]

theorem fullLength_not_short {length : Int} (h : FullLength length) :
    ¬ length % 4294967296 < (sizeof_hid_keyboard_input_report_boot_t : Int) := by
  obtain ⟨h1, h2⟩ := h
  simp only [sizeof_hid_keyboard_input_report_boot_t] at h1 ⊢
  omega

theorem report_callback_eq (st : AppState) (r : hid_keyboard_input_report_boot_t)
    (length : Int) (h : FullLength length) :
    hid_host_keyboard_report_callback st r length =
      ({ (report_events st.prev_keys r).foldl key_event_callback st with prev_keys := r.key },
        report_events st.prev_keys r) := by
  unfold hid_host_keyboard_report_callback
  rw [if_neg (fullLength_not_short h), report_loop_eq]
  simp [report_events]

theorem mem_report_events (prev : KeyArray) (r : hid_keyboard_input_report_boot_t)
    (e : key_event_t) :
    e ∈ report_events prev r ↔
      (e.state = .KEY_STATE_RELEASED ∧ e.modifier = 0 ∧ e.key_code > HID_KEY_ERROR_UNDEFINED ∧
        Occurs prev e.key_code ∧ ¬ Occurs r.key e.key_code) ∨
      (e.state = .KEY_STATE_PRESSED ∧ e.modifier = r.modifier ∧
        e.key_code > HID_KEY_ERROR_UNDEFINED ∧
        Occurs r.key e.key_code ∧ ¬ Occurs prev e.key_code) := by
  simp only [report_events, List.mem_flatMap, List.mem_finRange, true_and, slot_events,
    List.mem_append, key_found_eq_false_iff, Occurs]
  constructor
  · rintro ⟨i, hi | hi⟩
    · split_ifs at hi with hc
      · simp only [List.mem_singleton] at hi
        subst hi
        exact Or.inl ⟨rfl, rfl, hc.1, ⟨i, rfl⟩, hc.2⟩
      · simp at hi
    · split_ifs at hi with hc
      · simp only [List.mem_singleton] at hi
        subst hi
        exact Or.inr ⟨rfl, rfl, hc.1, ⟨i, rfl⟩, hc.2⟩
      · simp at hi
  · rintro (⟨hs, hm, hk, ⟨i, hi⟩, hno⟩ | ⟨hs, hm, hk, ⟨i, hi⟩, hno⟩)
    · refine ⟨i, Or.inl ?_⟩
      rw [if_pos ⟨by rw [hi]; exact hk, by rw [hi]; exact hno⟩]
      rcases e with ⟨s, m, k⟩
      simp only at hs hm hi
      simp [hs, hm, hi]
    · refine ⟨i, Or.inr ?_⟩
      rw [if_pos ⟨by rw [hi]; exact hk, by rw [hi]; exact hno⟩]
      rcases e with ⟨s, m, k⟩
      simp only at hs hm hi
      simp [hs, hm, hi]

theorem softkey_key_event_callback (st : AppState) (e : key_event_t) (i : Fin 4) :
    (key_event_callback st e).softkey i =
      if e.key_code = softkey_code i then decide (e.state = .KEY_STATE_PRESSED)
      else st.softkey i := by
  rcases e with ⟨s, m, k⟩
  have h12 : HID_KEY_1 ≠ HID_KEY_2 := by decide
  have h13 : HID_KEY_1 ≠ HID_KEY_3 := by decide
  have h14 : HID_KEY_1 ≠ HID_KEY_4 := by decide
  have h23 : HID_KEY_2 ≠ HID_KEY_3 := by decide
  have h24 : HID_KEY_2 ≠ HID_KEY_4 := by decide
  have h34 : HID_KEY_3 ≠ HID_KEY_4 := by decide
  by_cases k1 : k = HID_KEY_1
  · subst k1
    cases s <;> fin_cases i <;>
      simp [key_event_callback, AppState.softkey, softkey_code, h12, h13, h14]
  by_cases k2 : k = HID_KEY_2
  · subst k2
    cases s <;> fin_cases i <;>
      simp [key_event_callback, AppState.softkey, softkey_code, h12.symm, h23, h24]
  by_cases k3 : k = HID_KEY_3
  · subst k3
    cases s <;> fin_cases i <;>
      simp [key_event_callback, AppState.softkey, softkey_code, h13.symm, h23.symm, h34]
  by_cases k4 : k = HID_KEY_4
  · subst k4
    cases s <;> fin_cases i <;>
      simp [key_event_callback, AppState.softkey, softkey_code, h14.symm, h24.symm, h34.symm]
  cases s <;> fin_cases i <;>
    simp [key_event_callback, AppState.softkey, softkey_code, k1, k2, k3, k4]

theorem softkey_foldl (evs : List key_event_t) (st : AppState) (i : Fin 4) :
    (evs.foldl key_event_callback st).softkey i =
      bit_after (softkey_code i) (st.softkey i) evs := by
  induction evs generalizing st with
  | nil => rfl
  | cons e es ih =>
    rw [List.foldl_cons, ih, softkey_key_event_callback]
    simp [bit_after]

theorem softkey_with_prev_keys (st : AppState) (keys : KeyArray) (i : Fin 4) :
    AppState.softkey { st with prev_keys := keys } i = st.softkey i := by
  fin_cases i <;> rfl

theorem bit_after_of_none (c : Nat) (evs : List key_event_t) (b : Bool)
    (h : ∀ e ∈ evs, e.key_code ≠ c) : bit_after c b evs = b := by
  induction evs generalizing b with
  | nil => rfl
  | cons e es ih =>
    have he : e.key_code ≠ c := h e (by simp)
    have := ih b (fun e' he' => h e' (by simp [he']))
    simpa [bit_after, he] using this

theorem bit_after_of_all (c : Nat) (s : key_state) (evs : List key_event_t) (b : Bool)
    (hall : ∀ e ∈ evs, e.key_code = c → e.state = s) (hex : ∃ e ∈ evs, e.key_code = c) :
    bit_after c b evs = decide (s = .KEY_STATE_PRESSED) := by
  induction evs generalizing b with
  | nil => simp at hex
  | cons e es ih =>
    have hall' : ∀ e' ∈ es, e'.key_code = c → e'.state = s :=
      fun e' he' => hall e' (by simp [he'])
    by_cases hes : ∃ e' ∈ es, e'.key_code = c
    · have := ih (if e.key_code = c then decide (e.state = .KEY_STATE_PRESSED) else b) hall' hes
      simpa [bit_after] using this
    · have hnone : ∀ e' ∈ es, e'.key_code ≠ c := fun e' he' hc => hes ⟨e', he', hc⟩
      have hec : e.key_code = c := by
        obtain ⟨e', he', hc⟩ := hex
        rcases List.mem_cons.mp he' with rfl | hmem
        · exact hc
        · exact absurd hc (hnone e' hmem)
      have hst : e.state = s := hall e (by simp) hec
      have := bit_after_of_none c es (decide (s = .KEY_STATE_PRESSED)) hnone
      simpa [bit_after, hec, hst] using this

theorem softkey_code_valid (i : Fin 4) : softkey_code i > HID_KEY_ERROR_UNDEFINED := by
  fin_cases i <;> decide

theorem bit_after_report_events (prev : KeyArray) (r : hid_keyboard_input_report_boot_t)
    (c : Nat) (hc : c > HID_KEY_ERROR_UNDEFINED) :
    bit_after c (key_found prev c) (report_events prev r) = key_found r.key c := by
  by_cases hp : Occurs prev c <;> by_cases hr : Occurs r.key c
  · rw [bit_after_of_none]
    · rw [(key_found_iff prev c).mpr hp, (key_found_iff r.key c).mpr hr]
    · intro e he hk
      subst hk
      rcases (mem_report_events prev r e).mp he with ⟨_, _, _, _, h⟩ | ⟨_, _, _, _, h⟩
      · exact h hr
      · exact h hp
  · rw [bit_after_of_all c .KEY_STATE_RELEASED]
    · have : key_found r.key c = false := (key_found_eq_false_iff r.key c).mpr hr
      simp [this]
    · intro e he hk
      subst hk
      rcases (mem_report_events prev r e).mp he with ⟨h, _⟩ | ⟨_, _, _, h, _⟩
      · exact h
      · exact absurd h hr
    · exact ⟨{ state := .KEY_STATE_RELEASED, modifier := 0, key_code := c },
        (mem_report_events prev r _).mpr (Or.inl ⟨rfl, rfl, hc, hp, hr⟩), rfl⟩
  · rw [bit_after_of_all c .KEY_STATE_PRESSED]
    · have : key_found r.key c = true := (key_found_iff r.key c).mpr hr
      simp [this]
    · intro e he hk
      subst hk
      rcases (mem_report_events prev r e).mp he with ⟨_, _, _, h, _⟩ | ⟨h, _⟩
      · exact absurd h hp
      · exact h
    · exact ⟨{ state := .KEY_STATE_PRESSED, modifier := r.modifier, key_code := c },
        (mem_report_events prev r _).mpr (Or.inr ⟨rfl, rfl, hc, hr, hp⟩), rfl⟩
  · rw [bit_after_of_none]
    · rw [(key_found_eq_false_iff prev c).mpr hp, (key_found_eq_false_iff r.key c).mpr hr]
    · intro e he hk
      subst hk
      rcases (mem_report_events prev r e).mp he with ⟨_, _, _, h, _⟩ | ⟨_, _, _, h, _⟩
      · exact hp h
      · exact hr h

theorem softkey_after_report (st : AppState) (r : hid_keyboard_input_report_boot_t)
    (length : Int) (h : FullLength length) (i : Fin 4)
    (hb : st.softkey i = key_found st.prev_keys (softkey_code i)) :
    (hid_host_keyboard_report_callback st r length).1.softkey i =
      key_found r.key (softkey_code i) := by
  rw [report_callback_eq st r length h]
  simp only [softkey_with_prev_keys, softkey_foldl, hb]
  exact bit_after_report_events st.prev_keys r _ (softkey_code_valid i)

theorem prev_keys_after_report (st : AppState) (r : hid_keyboard_input_report_boot_t)
    (length : Int) (h : FullLength length) :
    (hid_host_keyboard_report_callback st r length).1.prev_keys = r.key := by
  rw [report_callback_eq st r length h]

theorem occurs_update_two (a b : Fin HID_KEYBOARD_KEY_MAX) (hab : a ≠ b) (x y k : Nat) :
    Occurs (Function.update (Function.update (fun _ => 0) a x) b y) k ↔
      k = y ∨ k = x ∨ k = 0 := by
  constructor
  · rintro ⟨i, hi⟩
    simp only [Function.update_apply] at hi
    split_ifs at hi
    · exact Or.inl hi.symm
    · exact Or.inr (Or.inl hi.symm)
    · exact Or.inr (Or.inr hi.symm)
  · rintro (h | h | h)
    · exact ⟨b, by simp [h]⟩
    · exact ⟨a, by simp [Function.update_apply, hab, h]⟩
    · obtain ⟨i, hia, hib⟩ :=
        (by decide : ∀ a b : Fin HID_KEYBOARD_KEY_MAX, ∃ i, i ≠ a ∧ i ≠ b) a b
      exact ⟨i, by simp [Function.update_apply, hia, hib, h]⟩

theorem flatMap_two_slots {α : Type} (a d : Fin HID_KEYBOARD_KEY_MAX) (x y : α) :
    (List.finRange HID_KEYBOARD_KEY_MAX).flatMap
        (fun i => (if i = a then [x] else []) ++ (if i = d then [y] else [])) =
      if a ≤ d then [x, y] else [y, x] := by
  have key : ∀ a d : Fin HID_KEYBOARD_KEY_MAX,
      (List.finRange HID_KEYBOARD_KEY_MAX).flatMap
        (fun i => (if i = a then [true] else []) ++ (if i = d then [false] else [])) =
      if a ≤ d then [true, false] else [false, true] := by decide
  have h := congrArg (List.map (fun b : Bool => if b then x else y)) (key a d)
  rw [List.map_flatMap] at h
  simp only [List.map_append, apply_ite (List.map (fun b : Bool => if b then x else y)),
    List.map_cons, List.map_nil, if_true, Bool.false_eq_true, if_false] at h
  exact h

theorem key_found_eq_false_iff_occurs (a : KeyArray) (k : Nat) :
    key_found a k = false ↔ ¬ Occurs a k :=
  key_found_eq_false_iff a k

theorem slot_events_two (K1 K2 K3 m res : Nat) (a b c d : Fin HID_KEYBOARD_KEY_MAX)
    (hab : a ≠ b) (hcd : c ≠ d)
    (h1 : K1 > HID_KEY_ERROR_UNDEFINED) (h2 : K2 > HID_KEY_ERROR_UNDEFINED)
    (h3 : K3 > HID_KEY_ERROR_UNDEFINED) (h12 : K1 ≠ K2) (h13 : K1 ≠ K3) (h23 : K2 ≠ K3)
    (i : Fin HID_KEYBOARD_KEY_MAX) :
    slot_events (Function.update (Function.update (fun _ => 0) a K1) b K2)
        { modifier := m, reserved := res,
          key := Function.update (Function.update (fun _ => 0) c K2) d K3 } i =
      (if i = a then [{ state := .KEY_STATE_RELEASED, modifier := 0, key_code := K1 }] else []) ++
      (if i = d then [{ state := .KEY_STATE_PRESSED, modifier := m, key_code := K3 }] else []) := by
  have z1 : K1 ≠ 0 := by unfold HID_KEY_ERROR_UNDEFINED at h1; omega
  have z2 : K2 ≠ 0 := by unfold HID_KEY_ERROR_UNDEFINED at h2; omega
  have z3 : K3 ≠ 0 := by unfold HID_KEY_ERROR_UNDEFINED at h3; omega
  have hz : ¬ (0 > HID_KEY_ERROR_UNDEFINED) := by decide
  unfold slot_events
  simp only [key_found_eq_false_iff_occurs, occurs_update_two a b hab,
    occurs_update_two c d hcd]
  congr 1
  · by_cases hib : i = b
    · subst hib
      have hia : i ≠ a := fun h => hab h.symm
      simp [hia]
    · by_cases hia : i = a
      · subst hia
        simp [Function.update_apply, hib, h1, h13, h12, z1]
      · simp [Function.update_apply, hib, hia, hz]
  · by_cases hid : i = d
    · subst hid
      simp [h3, h13.symm, h23.symm, z3]
    · by_cases hic : i = c
      · subst hic
        simp [Function.update_apply, hid]
      · simp [Function.update_apply, hid, hic, hz]

theorem report_callback_eq_of_not_short (st : AppState)
    (r : hid_keyboard_input_report_boot_t) (length : Int)
    (h : ¬ length % 4294967296 < (sizeof_hid_keyboard_input_report_boot_t : Int)) :
    hid_host_keyboard_report_callback st r length =
      ({ (report_events st.prev_keys r).foldl key_event_callback st with prev_keys := r.key },
        report_events st.prev_keys r) := by
  unfold hid_host_keyboard_report_callback
  rw [if_neg h, report_loop_eq]
  simp [report_events]

theorem report_callback_short (st : AppState) (r : hid_keyboard_input_report_boot_t)
    (length : Int)
    (h : length % 4294967296 < (sizeof_hid_keyboard_input_report_boot_t : Int)) :
    hid_host_keyboard_report_callback st r length = (st, []) := by
  unfold hid_host_keyboard_report_callback
  rw [if_pos h]

theorem report_callback_events_mem (st : AppState) (r : hid_keyboard_input_report_boot_t)
    (length : Int) (e : key_event_t)
    (he : e ∈ (hid_host_keyboard_report_callback st r length).2) :
    e ∈ report_events st.prev_keys r := by
  by_cases h : length % 4294967296 < (sizeof_hid_keyboard_input_report_boot_t : Int)
  · rw [report_callback_short st r length h] at he
    simp at he
  · rw [report_callback_eq_of_not_short st r length h] at he
    exact he

theorem report_callback_events_congr (st1 st2 : AppState)
    (r : hid_keyboard_input_report_boot_t) (length : Int)
    (h : st1.prev_keys = st2.prev_keys) :
    (hid_host_keyboard_report_callback st1 r length).2 =
      (hid_host_keyboard_report_callback st2 r length).2 := by
  by_cases hs : length % 4294967296 < (sizeof_hid_keyboard_input_report_boot_t : Int)
  · rw [report_callback_short st1 r length hs, report_callback_short st2 r length hs]
  · rw [report_callback_eq_of_not_short st1 r length hs,
      report_callback_eq_of_not_short st2 r length hs, h]

theorem report_events_same (prev : KeyArray) (r : hid_keyboard_input_report_boot_t)
    (h : r.key = prev) : report_events prev r = [] := by
  rw [List.eq_nil_iff_forall_not_mem]
  intro e he
  rcases (mem_report_events prev r e).mp he with ⟨_, _, _, h1, h2⟩ | ⟨_, _, _, h1, h2⟩
  · exact h2 (h ▸ h1)
  · exact h2 (h ▸ h1)

theorem occurs_zero (k : Nat) : Occurs (fun _ => 0) k ↔ k = 0 := by
  constructor
  · rintro ⟨_, hi⟩; exact hi.symm
  · intro h; exact ⟨0, h.symm⟩

theorem occurs_update_one (a : Fin HID_KEYBOARD_KEY_MAX) (x k : Nat) :
    Occurs (Function.update (fun _ => 0) a x) k ↔ k = x ∨ k = 0 := by
  constructor
  · rintro ⟨i, hi⟩
    simp only [Function.update_apply] at hi
    split_ifs at hi
    · exact Or.inl hi.symm
    · exact Or.inr hi.symm
  · rintro (h | h)
    · exact ⟨a, by simp [h]⟩
    · obtain ⟨i, hia⟩ := (by decide : ∀ a : Fin HID_KEYBOARD_KEY_MAX, ∃ i, i ≠ a) a
      exact ⟨i, by simp [Function.update_apply, hia, h]⟩

theorem flatMap_one_slot {α : Type} (a : Fin HID_KEYBOARD_KEY_MAX) (x : α) :
    (List.finRange HID_KEYBOARD_KEY_MAX).flatMap (fun i => if i = a then [x] else []) = [x] := by
  have key : ∀ a : Fin HID_KEYBOARD_KEY_MAX,
      (List.finRange HID_KEYBOARD_KEY_MAX).flatMap (fun i => if i = a then [()] else []) =
        [()] := by decide
  have h := congrArg (List.map (fun _ : Unit => x)) (key a)
  rw [List.map_flatMap] at h
  simp only [apply_ite (List.map (fun _ : Unit => x)), List.map_cons, List.map_nil] at h
  exact h

theorem report_events_press_one (K1 m res : Nat) (a : Fin HID_KEYBOARD_KEY_MAX)
    (h1 : K1 > HID_KEY_ERROR_UNDEFINED) :
    report_events (fun _ => 0)
        { modifier := m, reserved := res, key := Function.update (fun _ => 0) a K1 } =
      [{ state := .KEY_STATE_PRESSED, modifier := m, key_code := K1 }] := by
  have z1 : K1 ≠ 0 := by unfold HID_KEY_ERROR_UNDEFINED at h1; omega
  have hz : ¬ (0 > HID_KEY_ERROR_UNDEFINED) := by decide
  unfold report_events
  rw [← flatMap_one_slot a]
  congr 1
  funext i
  unfold slot_events
  simp only [key_found_eq_false_iff_occurs, occurs_update_one, occurs_zero]
  by_cases hia : i = a
  · subst hia
    simp [hz, h1, z1]
  · simp [Function.update_apply, hia, hz]

theorem report_events_release_one (K1 m res : Nat) (a : Fin HID_KEYBOARD_KEY_MAX)
    (h1 : K1 > HID_KEY_ERROR_UNDEFINED) :
    report_events (Function.update (fun _ => 0) a K1)
        { modifier := m, reserved := res, key := fun _ => 0 } =
      [{ state := .KEY_STATE_RELEASED, modifier := 0, key_code := K1 }] := by
  have z1 : K1 ≠ 0 := by unfold HID_KEY_ERROR_UNDEFINED at h1; omega
  have hz : ¬ (0 > HID_KEY_ERROR_UNDEFINED) := by decide
  unfold report_events
  rw [← flatMap_one_slot a]
  congr 1
  funext i
  unfold slot_events
  simp only [key_found_eq_false_iff_occurs, occurs_update_one, occurs_zero]
  by_cases hia : i = a
  · subst hia
    simp [hz, h1, z1]
  · simp [Function.update_apply, hia, hz]

/-! ## Application wiring: lemmas -/

theorem ESP_ERROR_CHECK_create {m s : Bool} {st reg : Registry} {n : List Nat}
    {type : hal_type_t} {data_ptr dir : Nat}
    (h : ESP_ERROR_CHECK (hal_create_pin m s st (some n) type data_ptr dir) = some reg) :
    reg = { name := strdup n, type := type, data_ptr := data_ptr, flags := dir } :: st := by
  unfold ESP_ERROR_CHECK at h
  rcases hal_create_pin_snd_cases m s st (some n) type data_ptr dir with
    ⟨h1, _⟩ | ⟨n', hn, _, h1, h2⟩
  · rw [if_neg h1] at h; cases h
  · rw [if_pos h1] at h
    cases hn
    rw [h2] at h
    exact (Option.some.inj h).symm

theorem app_main_hal_eq {L : AppLayout} {alloc : Fin 5 → Bool × Bool} {s_pin_head reg : Registry}
    (h : app_main_hal L alloc s_pin_head = some reg) :
    reg =
      [{ name := strdup (cstr "hw.kb.last_keycode"), type := .HAL_S32,
         data_ptr := L.addr_last_keycode, flags := HAL_IN },
       { name := strdup (cstr "pendant.softkey.4"), type := .HAL_BIT,
         data_ptr := L.addr_softkey_4, flags := HAL_IO },
       { name := strdup (cstr "pendant.softkey.3"), type := .HAL_BIT,
         data_ptr := L.addr_softkey_3, flags := HAL_IO },
       { name := strdup (cstr "pendant.softkey.2"), type := .HAL_BIT,
         data_ptr := L.addr_softkey_2, flags := HAL_IO },
       { name := strdup (cstr "pendant.softkey.1"), type := .HAL_BIT,
         data_ptr := L.addr_softkey_1, flags := HAL_IO }] := by
  simp only [app_main_hal, bind, Option.bind_eq_some, pure] at h
  obtain ⟨s0, h0, s1, h1, s2, h2, s3, h3, s4, h4, s5, h5, hreg⟩ := h
  have e0 : s0 = [] := by
    simp only [ESP_ERROR_CHECK, hal_init, if_true] at h0
    exact (Option.some.inj h0).symm
  have e1 := ESP_ERROR_CHECK_create h1
  have e2 := ESP_ERROR_CHECK_create h2
  have e3 := ESP_ERROR_CHECK_create h3
  have e4 := ESP_ERROR_CHECK_create h4
  have e5 := ESP_ERROR_CHECK_create h5
  cases hreg
  rw [e5, e4, e3, e2, e1, e0]

theorem hal_find_pin_cons (p : hal_pin_t) (ps : Registry) (n : List Nat) :
    hal_find_pin (p :: ps) n = if strcmp p.name n = 0 then some p else hal_find_pin ps n := rfl

theorem app_main_find_softkey {L : AppLayout} {alloc : Fin 5 → Bool × Bool}
    {s_pin_head reg : Registry} (h : app_main_hal L alloc s_pin_head = some reg) (i : Fin 4) :
    hal_find_pin reg (softkey_name i) =
      some { name := softkey_name i, type := .HAL_BIT, data_ptr := L.addr_softkey i,
             flags := HAL_IO } := by
  rw [app_main_hal_eq h]
  fin_cases i
  · simp only [hal_find_pin_cons]
    rw [if_neg (by decide), if_neg (by decide), if_neg (by decide), if_neg (by decide),
      if_pos (by decide)]
    have : strdup (cstr "pendant.softkey.1") = cstr "pendant.softkey.1" := by decide
    rw [this]; rfl
  · simp only [hal_find_pin_cons]
    rw [if_neg (by decide), if_neg (by decide), if_neg (by decide), if_pos (by decide)]
    have : strdup (cstr "pendant.softkey.2") = cstr "pendant.softkey.2" := by decide
    rw [this]; rfl
  · simp only [hal_find_pin_cons]
    rw [if_neg (by decide), if_neg (by decide), if_pos (by decide)]
    have : strdup (cstr "pendant.softkey.3") = cstr "pendant.softkey.3" := by decide
    rw [this]; rfl
  · simp only [hal_find_pin_cons]
    rw [if_neg (by decide), if_pos (by decide)]
    have : strdup (cstr "pendant.softkey.4") = cstr "pendant.softkey.4" := by decide
    rw [this]; rfl

theorem mem_addr_softkey (L : AppLayout) (base : Mem) (st : AppState) (hL : L.WellFormed)
    (i : Fin 4) :
    st.mem L base (L.addr_softkey i) = if st.softkey i then 1 else 0 := by
  obtain ⟨_, _, _, _, _, h12, h13, h14, h23, h24, h34, _⟩ := hL
  fin_cases i
  · simp [AppState.mem, AppLayout.addr_softkey, AppState.softkey]
  · simp [AppState.mem, AppLayout.addr_softkey, AppState.softkey, h12.symm]
  · simp [AppState.mem, AppLayout.addr_softkey, AppState.softkey, h13.symm, h23.symm]
  · simp [AppState.mem, AppLayout.addr_softkey, AppState.softkey, h14.symm, h24.symm, h34.symm]

theorem addr_softkey_ne_zero (L : AppLayout) (hL : L.WellFormed) (i : Fin 4) :
    L.addr_softkey i ≠ 0 := by
  obtain ⟨h1, h2, h3, h4, _⟩ := hL
  fin_cases i
  · exact h1
  · exact h2
  · exact h3
  · exact h4

theorem hal_get_bit_softkey {L : AppLayout} {alloc : Fin 5 → Bool × Bool}
    {s_pin_head reg : Registry} (h : app_main_hal L alloc s_pin_head = some reg)
    (hL : L.WellFormed) (base : Mem) (st : AppState) (i : Fin 4) :
    hal_get_bit (hal_find_pin reg (softkey_name i)) (st.mem L base) = st.softkey i := by
  rw [app_main_find_softkey h i]
  simp only [hal_get_bit, true_and, if_pos (addr_softkey_ne_zero L hL i), mem_addr_softkey L base st hL i]
  cases st.softkey i <;> simp

/-! ## Event loop and report sequences: lemmas -/

theorem app_main_loop_no_cancel (l : List (Option app_event_queue_t))
    (h : ∀ d ∈ l, is_cancel d = false) :
    app_main_loop l = (lifecycle_calls l, false) := by
  induction l with
  | nil => rfl
  | cons d ds ih =>
    have hd : is_cancel d = false := h d (by simp)
    have ih' := ih (fun d' hd' => h d' (by simp [hd']))
    cases d with
    | none => simpa [app_main_loop, lifecycle_calls] using ih'
    | some evt =>
      have hne : evt.event_group ≠ .APP_EVENT := by simpa [is_cancel] using hd
      have hh : evt.event_group = .APP_EVENT_HID_HOST := by
        cases hg : evt.event_group with
        | APP_EVENT => exact absurd hg hne
        | APP_EVENT_HID_HOST => rfl
      simp only [app_main_loop, hh, ih', lifecycle_calls, List.filterMap_cons, if_true,
        reduceCtorEq, if_false]

theorem app_main_loop_cancel (pre post : List (Option app_event_queue_t))
    (c : Option app_event_queue_t) (hpre : ∀ d ∈ pre, is_cancel d = false)
    (hc : is_cancel c = true) :
    app_main_loop (pre ++ c :: post) = (lifecycle_calls pre, true) := by
  induction pre with
  | nil =>
    cases c with
    | none => simp [is_cancel] at hc
    | some evt =>
      have : evt.event_group = .APP_EVENT := by simpa [is_cancel] using hc
      simp [app_main_loop, this, lifecycle_calls]
  | cons d ds ih =>
    have hd : is_cancel d = false := hpre d (by simp)
    have ih' := ih (fun d' hd' => hpre d' (by simp [hd']))
    cases d with
    | none => simpa [app_main_loop, lifecycle_calls] using ih'
    | some evt =>
      have hne : evt.event_group ≠ .APP_EVENT := by simpa [is_cancel] using hd
      have hh : evt.event_group = .APP_EVENT_HID_HOST := by
        cases hg : evt.event_group with
        | APP_EVENT => exact absurd hg hne
        | APP_EVENT_HID_HOST => rfl
      simp only [List.cons_append, app_main_loop, hh, if_true, reduceCtorEq, if_false]
      rw [show ds.append (c :: post) = ds ++ c :: post from rfl, ih']
      simp [lifecycle_calls, hh]

theorem range_map_split (s : Nat → Option app_event_queue_t) (k n : Nat) (h : k < n) :
    (List.range n).map s =
      (List.range k).map s ++ s k :: ((List.range (n - (k + 1))).map (fun j => s (k + 1 + j))) := by
  have hn : n = (k + 1) + (n - (k + 1)) := by omega
  conv_lhs => rw [hn, List.range_add, List.map_append, List.range_succ, List.map_append]
  simp [List.map_map, Function.comp_def]

theorem softkey_initial (i : Fin 4) :
    AppState.initial.softkey i = key_found AppState.initial.prev_keys (softkey_code i) := by
  fin_cases i <;> decide

theorem fullLength_of_valid {length : Int} (hv : ValidLength length)
    (h : (sizeof_hid_keyboard_input_report_boot_t : Int) ≤ length) : FullLength length :=
  ⟨h, hv.2⟩

theorem short_of_valid {length : Int} (hv : ValidLength length)
    (h : ¬ (sizeof_hid_keyboard_input_report_boot_t : Int) ≤ length) :
    length % 4294967296 < (sizeof_hid_keyboard_input_report_boot_t : Int) := by
  obtain ⟨h0, h1⟩ := hv
  simp only [sizeof_hid_keyboard_input_report_boot_t] at h ⊢
  omega

theorem run_reports_track (reports : List (hid_keyboard_input_report_boot_t × Int))
    (st : AppState) (acc : Option hid_keyboard_input_report_boot_t)
    (hval : ∀ p ∈ reports, ValidLength p.2)
    (hinv : ∀ i, st.softkey i = key_found st.prev_keys (softkey_code i))
    (hacc : ∀ r, acc = some r → st.prev_keys = r.key) :
    (∀ i, (run_reports st reports).softkey i =
      key_found (run_reports st reports).prev_keys (softkey_code i)) ∧
    (∀ r, last_full_report acc reports = some r →
      (run_reports st reports).prev_keys = r.key) := by
  induction reports generalizing st acc with
  | nil => exact ⟨hinv, hacc⟩
  | cons p ps ih =>
    have hp : ValidLength p.2 := hval p (by simp)
    have hps : ∀ q ∈ ps, ValidLength q.2 := fun q hq => hval q (by simp [hq])
    simp only [run_reports, last_full_report, List.foldl_cons]
    by_cases hfull : (sizeof_hid_keyboard_input_report_boot_t : Int) ≤ p.2
    · have hF := fullLength_of_valid hp hfull
      rw [if_pos hfull]
      refine ih _ (some p.1) hps ?_ ?_
      · intro i
        rw [prev_keys_after_report st p.1 p.2 hF]
        exact softkey_after_report st p.1 p.2 hF i (hinv i)
      · intro r hr
        cases hr
        exact prev_keys_after_report st p.1 p.2 hF
    · rw [if_neg hfull, report_callback_short st p.1 p.2 (short_of_valid hp hfull)]
      exact ih st acc hps hinv hacc

theorem load32_store32 (mem : Mem) (addr val : Nat) (h : val < 4294967296) :
    load32 (store32 mem addr val) addr = val := by
  unfold load32 store32
  have e1 : addr + 1 - addr = 1 := by omega
  have e2 : addr + 2 - addr = 2 := by omega
  have e3 : addr + 3 - addr = 3 := by omega
  simp only [le_refl, Nat.lt_add_of_pos_right, Nat.le_add_right, Nat.add_lt_add_iff_left,
    Nat.sub_self, pow_zero, Nat.div_one, e1, e2, e3, and_self, if_true, Nat.reduceLT,
    Nat.reducePow, Nat.lt_add_right_iff_pos, Nat.ofNat_pos]
  omega

/-! ## Registry: claims -/

/-- C1: for every registry state and every non-null name that is already registered,
`hal_create_pin` with any kind, any non-null storage pointer, any direction flags (and any
allocator behaviour) returns `ESP_ERR_INVALID_STATE`, a code different from `ESP_OK`,
`ESP_ERR_INVALID_ARG` and `ESP_ERR_NO_MEM`, and leaves the registry as it was, so that
`hal_find_pin` of that name still yields the pin that was registered first. -/
theorem hal_create_pin_duplicate (st : Registry) (name : List Nat) (type : hal_type_t)
    (data_ptr dir : Nat) (m s : Bool) (hptr : data_ptr ≠ 0)
    (hreg : hal_find_pin st name ≠ none) :
    hal_create_pin m s st (some name) type data_ptr dir = (ESP_ERR_INVALID_STATE, st) ∧
    ESP_ERR_INVALID_STATE ≠ ESP_OK ∧
    ESP_ERR_INVALID_STATE ≠ ESP_ERR_INVALID_ARG ∧
    ESP_ERR_INVALID_STATE ≠ ESP_ERR_NO_MEM ∧
    hal_find_pin (hal_create_pin m s st (some name) type data_ptr dir).2 name =
      hal_find_pin st name := by
  have h : hal_create_pin m s st (some name) type data_ptr dir = (ESP_ERR_INVALID_STATE, st) := by
    simp [hal_create_pin, hptr, hreg]
  refine ⟨h, by decide, by decide, by decide, ?_⟩
  rw [h]

/-- Witness for C1: after `"a"` is bound to a bit at address 16, a second creation of `"a"`
as a float at address 32 is refused and the lookup still gives the first binding. -/
theorem hal_create_pin_duplicate_witness :
    (32 : Nat) ≠ 0 ∧
    hal_find_pin [{ name := [97], type := .HAL_BIT, data_ptr := 16, flags := 3 }] [97] ≠ none ∧
    hal_create_pin true true [{ name := [97], type := .HAL_BIT, data_ptr := 16, flags := 3 }]
      (some [97]) .HAL_FLOAT 32 1 =
      (ESP_ERR_INVALID_STATE, [{ name := [97], type := .HAL_BIT, data_ptr := 16, flags := 3 }]) :=
  ⟨by decide, by decide,
    (hal_create_pin_duplicate [{ name := [97], type := .HAL_BIT, data_ptr := 16, flags := 3 }]
      [97] .HAL_FLOAT 32 1 true true (by decide) (by decide)).1⟩

/-- C2: in every registry state reached from `hal_init` by a finite sequence of API calls
(creations with arbitrary arguments and allocator outcomes, lookups, further
initialisations), no two pins of the registry have the same name. -/
theorem hal_names_unique (st0 : Registry) (calls : List hal_call) :
    (hal_run (hal_init st0).2 calls).Pairwise (fun p q => strcmp p.name q.name ≠ 0) :=
  hal_run_namesUnique calls _ (by simp [hal_init, NamesUnique])

/-- C3: in every registry state reached from `hal_init` by a finite sequence of API calls,
and for every non-null name: a lookup leaves the registry as it is, so a repeated lookup gives
the same pin; a pin that is returned is in the registry and its name equals the queried name;
a pin is returned if and only if some creation with that name returned `ESP_OK` since the
last `hal_init`; and the result is NULL for a name never registered. -/
theorem hal_find_pin_spec (st0 : Registry) (calls : List hal_call) (name : List Nat) :
    hal_step (hal_run (hal_init st0).2 calls) (.find name) = hal_run (hal_init st0).2 calls ∧
    hal_find_pin (hal_step (hal_run (hal_init st0).2 calls) (.find name)) name =
      hal_find_pin (hal_run (hal_init st0).2 calls) name ∧
    (∀ p, hal_find_pin (hal_run (hal_init st0).2 calls) name = some p →
      p ∈ hal_run (hal_init st0).2 calls ∧ strcmp p.name name = 0) ∧
    (hal_find_pin (hal_run (hal_init st0).2 calls) name ≠ none ↔
      RegisteredSince (hal_init st0).2 calls name) ∧
    ((∀ pre c post, calls = pre ++ c :: post → ¬ creates (hal_run (hal_init st0).2 pre) name c) →
      hal_find_pin (hal_run (hal_init st0).2 calls) name = none) := by
  refine ⟨rfl, rfl, fun p hp => hal_find_pin_some hp, hal_find_pin_iff_registered calls name, ?_⟩
  intro hnever
  by_contra hne
  obtain ⟨pre, c, post, heq, hc, _⟩ := (hal_find_pin_iff_registered calls name).mp hne
  exact hnever pre c post heq hc

/-- Witness for C3: after `hal_init` and one successful creation of `"a"`, the lookup of `"a"`
returns the pin created, whose name is `"a"`, and `"a"` counts as registered. -/
theorem hal_find_pin_spec_witness :
    hal_find_pin (hal_run (hal_init []).2 [.create (some [97]) .HAL_BIT 8 3 true true]) [97] =
      some { name := [97], type := .HAL_BIT, data_ptr := 8, flags := 3 } ∧
    strcmp [97] [97] = 0 ∧
    RegisteredSince (hal_init []).2 [.create (some [97]) .HAL_BIT 8 3 true true] [97] :=
  ⟨by decide,
    ((hal_find_pin_spec [] [.create (some [97]) .HAL_BIT 8 3 true true] [97]).2.2.1
      { name := [97], type := .HAL_BIT, data_ptr := 8, flags := 3 } (by decide)).2,
    (hal_find_pin_spec [] [.create (some [97]) .HAL_BIT 8 3 true true] [97]).2.2.2.1.mp
      (by decide)⟩

/-- C4 counterexample: on the empty registry, creating a pin whose name is the empty string,
with storage address 16, returns `ESP_OK` and registers the pin; it does not fail with
`ESP_ERR_INVALID_ARG`. -/
theorem hal_create_pin_empty_name_counterexample :
    hal_create_pin true true [] (some []) .HAL_BIT 16 3 =
      (ESP_OK, [{ name := [], type := .HAL_BIT, data_ptr := 16, flags := 3 }]) ∧
    ¬ ((hal_create_pin true true [] (some []) .HAL_BIT 16 3).1 = ESP_ERR_INVALID_ARG ∧
       (hal_create_pin true true [] (some []) .HAL_BIT 16 3).2 = []) := by
  decide

/-- C4 as amended: an empty name (a buffer whose first byte is the terminator) with a non-null
storage pointer is treated like every other name and never yields `ESP_ERR_INVALID_ARG`: the
call returns `ESP_ERR_INVALID_STATE` with the registry unchanged when the empty name is
registered already, `ESP_ERR_NO_MEM` with the registry unchanged when an allocation fails, and
otherwise `ESP_OK`, putting a pin with the empty name at the head of the registry. -/
theorem hal_create_pin_empty_name (st : Registry) (name : List Nat) (type : hal_type_t)
    (data_ptr dir : Nat) (m s : Bool) (hname : strdup name = []) (hptr : data_ptr ≠ 0) :
    (hal_create_pin m s st (some name) type data_ptr dir).1 ≠ ESP_ERR_INVALID_ARG ∧
    hal_create_pin m s st (some name) type data_ptr dir =
      if hal_find_pin st name ≠ none then (ESP_ERR_INVALID_STATE, st)
      else if m = false ∨ s = false then (ESP_ERR_NO_MEM, st)
      else (ESP_OK, { name := [], type := type, data_ptr := data_ptr, flags := dir } :: st) := by
  unfold hal_create_pin
  by_cases h2 : hal_find_pin st name = none
  · cases m <;> cases s <;>
      simp [hptr, h2, hname, ESP_OK, ESP_ERR_NO_MEM, ESP_ERR_INVALID_ARG]
  · simp [hptr, h2, ESP_ERR_INVALID_STATE, ESP_ERR_INVALID_ARG]

/-- Witness for the amended C4: the empty name is accepted on a registry that holds `"a"`. -/
theorem hal_create_pin_empty_name_witness :
    strdup [] = [] ∧ (16 : Nat) ≠ 0 ∧
    (hal_create_pin true true [{ name := [97], type := .HAL_BIT, data_ptr := 8, flags := 3 }]
      (some []) .HAL_S32 16 1).1 ≠ ESP_ERR_INVALID_ARG :=
  ⟨by decide, by decide,
    (hal_create_pin_empty_name [{ name := [97], type := .HAL_BIT, data_ptr := 8, flags := 3 }]
      [] .HAL_S32 16 1 true true (by decide) (by decide)).1⟩

/-- C5: for every registry state, `hal_create_pin` with a null name or a null storage pointer
returns `ESP_ERR_INVALID_ARG` and leaves the registry unchanged, whatever the other arguments
and the allocator do, also when the name is registered already. -/
theorem hal_create_pin_null (st : Registry) (name : Option (List Nat)) (type : hal_type_t)
    (data_ptr dir : Nat) (m s : Bool) (h : name = none ∨ data_ptr = 0) :
    hal_create_pin m s st name type data_ptr dir = (ESP_ERR_INVALID_ARG, st) := by
  unfold hal_create_pin
  cases name with
  | none => rfl
  | some n =>
    have hp : data_ptr = 0 := by simpa using h
    simp [hp]

/-- Witness for C5: a null storage pointer with the registered name `"a"`. -/
theorem hal_create_pin_null_witness :
    ((some [97] : Option (List Nat)) = none ∨ (0 : Nat) = 0) ∧
    hal_create_pin true true [{ name := [97], type := .HAL_BIT, data_ptr := 8, flags := 3 }]
      (some [97]) .HAL_BIT 0 3 =
      (ESP_ERR_INVALID_ARG, [{ name := [97], type := .HAL_BIT, data_ptr := 8, flags := 3 }]) :=
  ⟨Or.inr rfl,
    hal_create_pin_null [{ name := [97], type := .HAL_BIT, data_ptr := 8, flags := 3 }]
      (some [97]) .HAL_BIT 0 3 true true (Or.inr rfl)⟩

/-- C6: from any prior state `hal_init` returns `ESP_OK` and leaves the registry empty: right
after it `hal_find_pin` is NULL for every non-null name, registered before or not, and a
creation with any non-null name and non-null storage pointer whose allocations succeed
returns `ESP_OK` and binds the name, also when the name was registered before the call. -/
theorem hal_init_resets (st : Registry) (name : List Nat) (type : hal_type_t)
    (data_ptr dir : Nat) (hptr : data_ptr ≠ 0) :
    (hal_init st).1 = ESP_OK ∧
    (hal_init st).2 = [] ∧
    (∀ n, hal_find_pin (hal_init st).2 n = none) ∧
    hal_create_pin true true (hal_init st).2 (some name) type data_ptr dir =
      (ESP_OK, [{ name := strdup name, type := type, data_ptr := data_ptr, flags := dir }]) ∧
    hal_find_pin (hal_create_pin true true (hal_init st).2 (some name) type data_ptr dir).2 name =
      some { name := strdup name, type := type, data_ptr := data_ptr, flags := dir } := by
  have hc : hal_create_pin true true (hal_init st).2 (some name) type data_ptr dir =
      (ESP_OK, [{ name := strdup name, type := type, data_ptr := data_ptr, flags := dir }]) := by
    simp [hal_create_pin, hal_init, hal_find_pin, hptr]
  refine ⟨rfl, rfl, fun n => rfl, hc, ?_⟩
  rw [hc]
  simp [hal_find_pin, strcmp_eq_zero_iff, strdup_strdup]

/-- Witness for C6: `"a"` is registered, `hal_init` runs, and `"a"` is registered again. -/
theorem hal_init_resets_witness :
    (32 : Nat) ≠ 0 ∧
    hal_find_pin [{ name := [97], type := .HAL_BIT, data_ptr := 8, flags := 3 }] [97] ≠ none ∧
    hal_find_pin (hal_init [{ name := [97], type := .HAL_BIT, data_ptr := 8, flags := 3 }]).2
      [97] = none ∧
    hal_create_pin true true
      (hal_init [{ name := [97], type := .HAL_BIT, data_ptr := 8, flags := 3 }]).2
      (some [97]) .HAL_FLOAT 32 1 =
      (ESP_OK, [{ name := strdup [97], type := .HAL_FLOAT, data_ptr := 32, flags := 1 }]) :=
  ⟨by decide, by decide,
    (hal_init_resets [{ name := [97], type := .HAL_BIT, data_ptr := 8, flags := 3 }]
      [97] .HAL_FLOAT 32 1 (by decide)).2.2.1 [97],
    (hal_init_resets [{ name := [97], type := .HAL_BIT, data_ptr := 8, flags := 3 }]
      [97] .HAL_FLOAT 32 1 (by decide)).2.2.2.1⟩

/-! ## Accessors: claims -/

/-- C7: the accessors do nothing on a kind mismatch. When the handle is NULL or its kind is
not `HAL_BIT` (a `HAL_FLOAT` pin for one), `hal_set_bit` leaves the whole memory unchanged
and `hal_get_bit` returns `false`; when the handle is NULL or its kind is not `HAL_FLOAT`,
`hal_set_float` leaves the whole memory unchanged and `hal_get_float` returns `0`. The
accessors return `void`, `bool` or `float`: none has an error to report. -/
theorem accessors_kind_mismatch (pinB pinF : Option hal_pin_t) (v : Bool) (x : float32)
    (mem : Mem) (hB : ∀ p, pinB = some p → p.type ≠ .HAL_BIT)
    (hF : ∀ p, pinF = some p → p.type ≠ .HAL_FLOAT) :
    hal_set_bit pinB v mem = mem ∧ hal_get_bit pinB mem = false ∧
    hal_set_float pinF x mem = mem ∧ hal_get_float pinF mem = 0 := by
  refine ⟨?_, ?_, ?_, ?_⟩
  · cases pinB with
    | none => rfl
    | some p => simp [hal_set_bit, hB p rfl]
  · cases pinB with
    | none => rfl
    | some p => simp [hal_get_bit, hB p rfl]
  · cases pinF with
    | none => rfl
    | some p => simp [hal_set_float, hF p rfl]
  · cases pinF with
    | none => rfl
    | some p => simp [hal_get_float, hF p rfl]

/-- Witness for C7: the bit accessors on a `HAL_FLOAT` pin and the float accessors on a
`HAL_BIT` pin, over a memory that holds `7` everywhere. -/
theorem accessors_kind_mismatch_witness :
    hal_set_bit (some { name := [102], type := .HAL_FLOAT, data_ptr := 32, flags := 1 }) true
      (fun _ => 7) = (fun _ => 7) ∧
    hal_get_bit (some { name := [102], type := .HAL_FLOAT, data_ptr := 32, flags := 1 })
      (fun _ => 7) = false ∧
    hal_set_float (some { name := [98], type := .HAL_BIT, data_ptr := 16, flags := 3 }) 1065353216
      (fun _ => 7) = (fun _ => 7) ∧
    hal_get_float (some { name := [98], type := .HAL_BIT, data_ptr := 16, flags := 3 })
      (fun _ => 7) = 0 :=
  accessors_kind_mismatch
    (some { name := [102], type := .HAL_FLOAT, data_ptr := 32, flags := 1 })
    (some { name := [98], type := .HAL_BIT, data_ptr := 16, flags := 3 })
    true 1065353216 (fun _ => 7)
    (by intro p hp; cases hp; decide) (by intro p hp; cases hp; decide)

/-! ## Keyboard: claims -/

/-- C8: for every stored previous key array and every full-length boot report, the events
that `hid_host_keyboard_report_callback` passes to `key_event_callback` contain a Released
event for key code `k` exactly when `k` is above the undefined sentinel, occurs in the
previous array and not in the report; every Released event has modifier `0`; they contain a
Pressed event for `k` exactly when `k` is above the sentinel, occurs in the report and not in
the previous array; every Pressed event has the report's modifier byte; and a key code that
is in both arrays, or in neither, has no event. -/
theorem report_events_spec (st : AppState) (r : hid_keyboard_input_report_boot_t)
    (length : Int) (k : Nat) (hlen : FullLength length) :
    ((∃ e ∈ (hid_host_keyboard_report_callback st r length).2,
        e.state = .KEY_STATE_RELEASED ∧ e.key_code = k) ↔
      (k > HID_KEY_ERROR_UNDEFINED ∧ Occurs st.prev_keys k ∧ ¬ Occurs r.key k)) ∧
    (∀ e ∈ (hid_host_keyboard_report_callback st r length).2,
        e.state = .KEY_STATE_RELEASED → e.modifier = 0) ∧
    ((∃ e ∈ (hid_host_keyboard_report_callback st r length).2,
        e.state = .KEY_STATE_PRESSED ∧ e.key_code = k) ↔
      (k > HID_KEY_ERROR_UNDEFINED ∧ Occurs r.key k ∧ ¬ Occurs st.prev_keys k)) ∧
    (∀ e ∈ (hid_host_keyboard_report_callback st r length).2,
        e.state = .KEY_STATE_PRESSED → e.modifier = r.modifier) ∧
    ((Occurs st.prev_keys k ↔ Occurs r.key k) →
      ∀ e ∈ (hid_host_keyboard_report_callback st r length).2, e.key_code ≠ k) := by
  rw [report_callback_eq st r length hlen]
  simp only [mem_report_events]
  refine ⟨⟨?_, ?_⟩, ?_, ⟨?_, ?_⟩, ?_, ?_⟩
  · rintro ⟨e, he, hs, hk⟩
    subst hk
    rcases he with ⟨_, _, h1, h2, h3⟩ | ⟨hp, _⟩
    · exact ⟨h1, h2, h3⟩
    · rw [hs] at hp; cases hp
  · rintro ⟨h1, h2, h3⟩
    exact ⟨{ state := .KEY_STATE_RELEASED, modifier := 0, key_code := k },
      Or.inl ⟨rfl, rfl, h1, h2, h3⟩, rfl, rfl⟩
  · rintro e (⟨_, hm, _⟩ | ⟨hp, _⟩) hs
    · exact hm
    · rw [hs] at hp; cases hp
  · rintro ⟨e, he, hs, hk⟩
    subst hk
    rcases he with ⟨hp, _⟩ | ⟨_, _, h1, h2, h3⟩
    · rw [hs] at hp; cases hp
    · exact ⟨h1, h2, h3⟩
  · rintro ⟨h1, h2, h3⟩
    exact ⟨{ state := .KEY_STATE_PRESSED, modifier := r.modifier, key_code := k },
      Or.inr ⟨rfl, rfl, h1, h2, h3⟩, rfl, rfl⟩
  · rintro e (⟨hp, _⟩ | ⟨_, hm, _⟩) hs
    · rw [hs] at hp; cases hp
    · exact hm
  · rintro hiff e (⟨_, _, _, h2, h3⟩ | ⟨_, _, _, h2, h3⟩) hk
    · subst hk; exact h3 (hiff.mp h2)
    · subst hk; exact h3 (hiff.mpr h2)

/-- Witness for C8: the previous array holds `4` and `5`, the report holds `5` and `6` with
modifier `2` and length `8`; the events are the release of `4` and the press of `6`. -/
theorem report_events_spec_witness :
    FullLength 8 ∧
    ((∃ e ∈ (hid_host_keyboard_report_callback
          { AppState.initial with prev_keys := ![4, 5, 0, 0, 0, 0] }
          { modifier := 2, reserved := 0, key := ![5, 6, 0, 0, 0, 0] } 8).2,
        e.state = .KEY_STATE_RELEASED ∧ e.key_code = 4) ↔
      (4 > HID_KEY_ERROR_UNDEFINED ∧ Occurs ![4, 5, 0, 0, 0, 0] 4 ∧
        ¬ Occurs ![5, 6, 0, 0, 0, 0] 4)) ∧
    (hid_host_keyboard_report_callback
        { AppState.initial with prev_keys := ![4, 5, 0, 0, 0, 0] }
        { modifier := 2, reserved := 0, key := ![5, 6, 0, 0, 0, 0] } 8).2 =
      [{ state := .KEY_STATE_RELEASED, modifier := 0, key_code := 4 },
       { state := .KEY_STATE_PRESSED, modifier := 2, key_code := 6 }] :=
  ⟨by decide,
    (report_events_spec { AppState.initial with prev_keys := ![4, 5, 0, 0, 0, 0] }
      { modifier := 2, reserved := 0, key := ![5, 6, 0, 0, 0, 0] } 8 4 (by decide)).1,
    by decide⟩

/-- C9 counterexample: the previous array holds `K2 = 5` in slot 0 and `K1 = 4` in slot 1,
the report holds `K3 = 6` in slot 0 and `K2 = 5` in slot 1. The press of `6` is dispatched
before the release of `4`: the sequence is not `[Released 4, Pressed 6]`. -/
theorem report_release_first_counterexample :
    (hid_host_keyboard_report_callback
        { AppState.initial with prev_keys := ![5, 4, 0, 0, 0, 0] }
        { modifier := 2, reserved := 0, key := ![6, 5, 0, 0, 0, 0] } 8).2 =
      [{ state := .KEY_STATE_PRESSED, modifier := 2, key_code := 6 },
       { state := .KEY_STATE_RELEASED, modifier := 0, key_code := 4 }] ∧
    (hid_host_keyboard_report_callback
        { AppState.initial with prev_keys := ![5, 4, 0, 0, 0, 0] }
        { modifier := 2, reserved := 0, key := ![6, 5, 0, 0, 0, 0] } 8).2 ≠
      [{ state := .KEY_STATE_RELEASED, modifier := 0, key_code := 4 },
       { state := .KEY_STATE_PRESSED, modifier := 2, key_code := 6 }] := by
  decide

/-- C9 as amended: within one call the events are dispatched slot by slot, for slot
`0` to slot `5`, and inside a slot the release of the previous array's entry comes before
the press of the report's entry; a press of an earlier slot therefore precedes a release of a
later slot. In particular, for distinct valid key codes `K1`, `K2`, `K3`, a previous array
holding `K1` in slot `a` and `K2` in slot `b` and a report holding `K2` in slot `c` and `K3`
in slot `d` (all other entries zero) yield `[Released K1, Pressed K3]` when `a ≤ d` and
`[Pressed K3, Released K1]` when `d < a`. -/
theorem report_slot_order (st : AppState) (r : hid_keyboard_input_report_boot_t)
    (length : Int) (K1 K2 K3 : Nat) (a b c d : Fin HID_KEYBOARD_KEY_MAX)
    (hlen : FullLength length) (hab : a ≠ b) (hcd : c ≠ d)
    (h1 : K1 > HID_KEY_ERROR_UNDEFINED) (h2 : K2 > HID_KEY_ERROR_UNDEFINED)
    (h3 : K3 > HID_KEY_ERROR_UNDEFINED) (h12 : K1 ≠ K2) (h13 : K1 ≠ K3) (h23 : K2 ≠ K3) :
    (hid_host_keyboard_report_callback st r length).2 =
      (List.finRange HID_KEYBOARD_KEY_MAX).flatMap (slot_events st.prev_keys r) ∧
    (hid_host_keyboard_report_callback
        { st with prev_keys := Function.update (Function.update (fun _ => 0) a K1) b K2 }
        { r with key := Function.update (Function.update (fun _ => 0) c K2) d K3 } length).2 =
      if a ≤ d then
        [{ state := .KEY_STATE_RELEASED, modifier := 0, key_code := K1 },
         { state := .KEY_STATE_PRESSED, modifier := r.modifier, key_code := K3 }]
      else
        [{ state := .KEY_STATE_PRESSED, modifier := r.modifier, key_code := K3 },
         { state := .KEY_STATE_RELEASED, modifier := 0, key_code := K1 }] := by
  refine ⟨?_, ?_⟩
  · rw [report_callback_eq st r length hlen]; rfl
  · rw [report_callback_eq _ _ length hlen]
    simp only [report_events]
    rw [← flatMap_two_slots a d]
    congr 1
    funext i
    exact slot_events_two K1 K2 K3 r.modifier r.reserved a b c d hab hcd h1 h2 h3 h12 h13 h23 i

/-- Witness for the amended C9: `K1 = 4` in slot 1 and `K2 = 5` in slot 0 of the previous
array, `K2` in slot 1 and `K3 = 6` in slot 0 of the report: the press comes first. -/
theorem report_slot_order_witness :
    FullLength 8 ∧
    (hid_host_keyboard_report_callback
        { AppState.initial with
          prev_keys := Function.update (Function.update (fun _ => 0) 1 4) 0 5 }
        { modifier := 2, reserved := 0,
          key := Function.update (Function.update (fun _ => 0) 1 5) 0 6 } 8).2 =
      if (1 : Fin HID_KEYBOARD_KEY_MAX) ≤ 0 then
        [{ state := .KEY_STATE_RELEASED, modifier := 0, key_code := 4 },
         { state := .KEY_STATE_PRESSED, modifier := 2, key_code := 6 }]
      else
        [{ state := .KEY_STATE_PRESSED, modifier := 2, key_code := 6 },
         { state := .KEY_STATE_RELEASED, modifier := 0, key_code := 4 }] :=
  ⟨by decide,
    (report_slot_order AppState.initial { modifier := 2, reserved := 0, key := fun _ => 0 } 8
      4 5 6 1 0 1 0 (by decide) (by decide) (by decide) (by decide) (by decide) (by decide)
      (by decide) (by decide) (by decide)).2⟩

/-- C10: round trip. Let the stored previous snapshot be `A` and let each of the four softkey
bits say whether its key code (`HID_KEY_1` .. `HID_KEY_4`) occurs in `A`. After a full-length
report with keys `B` and then a full-length report with keys `A`, with any modifier bytes,
the four softkey bits have their original values and the stored snapshot is `A` again. -/
theorem report_round_trip (st : AppState) (rB rA : hid_keyboard_input_report_boot_t)
    (lenB lenA : Int) (hB : FullLength lenB) (hA : FullLength lenA)
    (hkeys : rA.key = st.prev_keys)
    (hs1 : st.s_hal_softkey_1 = key_found st.prev_keys HID_KEY_1)
    (hs2 : st.s_hal_softkey_2 = key_found st.prev_keys HID_KEY_2)
    (hs3 : st.s_hal_softkey_3 = key_found st.prev_keys HID_KEY_3)
    (hs4 : st.s_hal_softkey_4 = key_found st.prev_keys HID_KEY_4) :
    (hid_host_keyboard_report_callback
      (hid_host_keyboard_report_callback st rB lenB).1 rA lenA).1.s_hal_softkey_1 =
        st.s_hal_softkey_1 ∧
    (hid_host_keyboard_report_callback
      (hid_host_keyboard_report_callback st rB lenB).1 rA lenA).1.s_hal_softkey_2 =
        st.s_hal_softkey_2 ∧
    (hid_host_keyboard_report_callback
      (hid_host_keyboard_report_callback st rB lenB).1 rA lenA).1.s_hal_softkey_3 =
        st.s_hal_softkey_3 ∧
    (hid_host_keyboard_report_callback
      (hid_host_keyboard_report_callback st rB lenB).1 rA lenA).1.s_hal_softkey_4 =
        st.s_hal_softkey_4 ∧
    (hid_host_keyboard_report_callback
      (hid_host_keyboard_report_callback st rB lenB).1 rA lenA).1.prev_keys =
        st.prev_keys := by
  have hbits : ∀ i, st.softkey i = key_found st.prev_keys (softkey_code i) := by
    intro i; fin_cases i
    · exact hs1
    · exact hs2
    · exact hs3
    · exact hs4
  have hmid : ∀ i, (hid_host_keyboard_report_callback st rB lenB).1.softkey i =
      key_found (hid_host_keyboard_report_callback st rB lenB).1.prev_keys (softkey_code i) := by
    intro i
    rw [prev_keys_after_report st rB lenB hB]
    exact softkey_after_report st rB lenB hB i (hbits i)
  have hend : ∀ i, (hid_host_keyboard_report_callback
      (hid_host_keyboard_report_callback st rB lenB).1 rA lenA).1.softkey i = st.softkey i := by
    intro i
    rw [softkey_after_report _ rA lenA hA i (hmid i), hkeys, hbits i]
  exact ⟨hend 0, hend 1, hend 2, hend 3, (prev_keys_after_report _ rA lenA hA).trans hkeys⟩

/-- Witness for C10: key `1` (code 30) and code 5 are held and softkey 1 is on; a report
with key `2` (code 31) alone turns softkey 1 off and softkey 2 on, and the report that
repeats the first snapshot restores the bits. -/
theorem report_round_trip_witness :
    FullLength 8 ∧ FullLength 64 ∧
    (hid_host_keyboard_report_callback
      { s_hal_softkey_1 := true, s_hal_softkey_2 := false, s_hal_softkey_3 := false,
        s_hal_softkey_4 := false, s_hal_last_keycode := 0, prev_keys := ![30, 5, 0, 0, 0, 0] }
      { modifier := 2, reserved := 0, key := ![31, 0, 0, 0, 0, 0] } 8).1.s_hal_softkey_1 = false ∧
    (hid_host_keyboard_report_callback
      { s_hal_softkey_1 := true, s_hal_softkey_2 := false, s_hal_softkey_3 := false,
        s_hal_softkey_4 := false, s_hal_last_keycode := 0, prev_keys := ![30, 5, 0, 0, 0, 0] }
      { modifier := 2, reserved := 0, key := ![31, 0, 0, 0, 0, 0] } 8).1.s_hal_softkey_2 = true ∧
    (hid_host_keyboard_report_callback
      (hid_host_keyboard_report_callback
        { s_hal_softkey_1 := true, s_hal_softkey_2 := false, s_hal_softkey_3 := false,
          s_hal_softkey_4 := false, s_hal_last_keycode := 0,
          prev_keys := ![30, 5, 0, 0, 0, 0] }
        { modifier := 2, reserved := 0, key := ![31, 0, 0, 0, 0, 0] } 8).1
      { modifier := 0, reserved := 0, key := ![30, 5, 0, 0, 0, 0] } 64).1.s_hal_softkey_1 = true ∧
    (hid_host_keyboard_report_callback
      (hid_host_keyboard_report_callback
        { s_hal_softkey_1 := true, s_hal_softkey_2 := false, s_hal_softkey_3 := false,
          s_hal_softkey_4 := false, s_hal_last_keycode := 0,
          prev_keys := ![30, 5, 0, 0, 0, 0] }
        { modifier := 2, reserved := 0, key := ![31, 0, 0, 0, 0, 0] } 8).1
      { modifier := 0, reserved := 0, key := ![30, 5, 0, 0, 0, 0] } 64).1.s_hal_softkey_2 = false :=
  ⟨by decide, by decide, by decide, by decide,
    (report_round_trip
      { s_hal_softkey_1 := true, s_hal_softkey_2 := false, s_hal_softkey_3 := false,
        s_hal_softkey_4 := false, s_hal_last_keycode := 0, prev_keys := ![30, 5, 0, 0, 0, 0] }
      { modifier := 2, reserved := 0, key := ![31, 0, 0, 0, 0, 0] }
      { modifier := 0, reserved := 0, key := ![30, 5, 0, 0, 0, 0] } 8 64
      (by decide) (by decide) rfl (by decide) (by decide) (by decide) (by decide)).1,
    (report_round_trip
      { s_hal_softkey_1 := true, s_hal_softkey_2 := false, s_hal_softkey_3 := false,
        s_hal_softkey_4 := false, s_hal_last_keycode := 0, prev_keys := ![30, 5, 0, 0, 0, 0] }
      { modifier := 2, reserved := 0, key := ![31, 0, 0, 0, 0, 0] }
      { modifier := 0, reserved := 0, key := ![30, 5, 0, 0, 0, 0] } 8 64
      (by decide) (by decide) rfl (by decide) (by decide) (by decide) (by decide)).2.1⟩

/-- C11: diffing a snapshot against itself is empty. For every key array, with repeated or
sentinel codes or not, and every length, when the report's key array equals the stored
previous snapshot the callback dispatches no event, and the whole state (the softkey bits,
the last key code and the stored snapshot) is unchanged. -/
theorem report_same_snapshot (st : AppState) (r : hid_keyboard_input_report_boot_t)
    (length : Int) (hsame : r.key = st.prev_keys) :
    (hid_host_keyboard_report_callback st r length).2 = [] ∧
    (hid_host_keyboard_report_callback st r length).1 = st ∧
    (hid_host_keyboard_report_callback st r length).1.s_hal_softkey_1 = st.s_hal_softkey_1 ∧
    (hid_host_keyboard_report_callback st r length).1.s_hal_softkey_2 = st.s_hal_softkey_2 ∧
    (hid_host_keyboard_report_callback st r length).1.s_hal_softkey_3 = st.s_hal_softkey_3 ∧
    (hid_host_keyboard_report_callback st r length).1.s_hal_softkey_4 = st.s_hal_softkey_4 ∧
    (hid_host_keyboard_report_callback st r length).1.s_hal_last_keycode =
      st.s_hal_last_keycode ∧
    (hid_host_keyboard_report_callback st r length).1.prev_keys = st.prev_keys := by
  have h : hid_host_keyboard_report_callback st r length = (st, []) := by
    by_cases hs : length % 4294967296 < (sizeof_hid_keyboard_input_report_boot_t : Int)
    · exact report_callback_short st r length hs
    · rw [report_callback_eq_of_not_short st r length hs, report_events_same _ r hsame, hsame]
      rfl
  rw [h]
  exact ⟨rfl, rfl, rfl, rfl, rfl, rfl, rfl, rfl⟩

/-- Witness for C11: the snapshot holds code 30 twice, the sentinel 3 and zeros; softkey 1 is
on and the last key code is 30. The same array arrives again with length 8. -/
theorem report_same_snapshot_witness :
    (hid_host_keyboard_report_callback
      { s_hal_softkey_1 := true, s_hal_softkey_2 := false, s_hal_softkey_3 := false,
        s_hal_softkey_4 := false, s_hal_last_keycode := 30, prev_keys := ![30, 30, 3, 0, 0, 0] }
      { modifier := 2, reserved := 0, key := ![30, 30, 3, 0, 0, 0] } 8).2 = [] ∧
    (hid_host_keyboard_report_callback
      { s_hal_softkey_1 := true, s_hal_softkey_2 := false, s_hal_softkey_3 := false,
        s_hal_softkey_4 := false, s_hal_last_keycode := 30, prev_keys := ![30, 30, 3, 0, 0, 0] }
      { modifier := 2, reserved := 0, key := ![30, 30, 3, 0, 0, 0] } 8).1.s_hal_softkey_1 =
        true :=
  ⟨(report_same_snapshot
      { s_hal_softkey_1 := true, s_hal_softkey_2 := false, s_hal_softkey_3 := false,
        s_hal_softkey_4 := false, s_hal_last_keycode := 30, prev_keys := ![30, 30, 3, 0, 0, 0] }
      { modifier := 2, reserved := 0, key := ![30, 30, 3, 0, 0, 0] } 8 rfl).1,
    (report_same_snapshot
      { s_hal_softkey_1 := true, s_hal_softkey_2 := false, s_hal_softkey_3 := false,
        s_hal_softkey_4 := false, s_hal_last_keycode := 30, prev_keys := ![30, 30, 3, 0, 0, 0] }
      { modifier := 2, reserved := 0, key := ![30, 30, 3, 0, 0, 0] } 8 rfl).2.2.1⟩

/-- C12: for every key code `K1` above the undefined sentinel and every slot `a`, on a report
of full length: with an all-zero previous snapshot and a report holding `K1` in slot `a` and
zero elsewhere, exactly one event is dispatched, Pressed `K1` with the report's modifier;
with the previous snapshot holding `K1` in slot `a` alone and an all-zero report, exactly one
event is dispatched, Released `K1` with modifier `0`. -/
theorem report_single_key (st : AppState) (r : hid_keyboard_input_report_boot_t)
    (length : Int) (K1 : Nat) (a : Fin HID_KEYBOARD_KEY_MAX)
    (hlen : FullLength length) (h1 : K1 > HID_KEY_ERROR_UNDEFINED) :
    (hid_host_keyboard_report_callback { st with prev_keys := fun _ => 0 }
        { r with key := Function.update (fun _ => 0) a K1 } length).2 =
      [{ state := .KEY_STATE_PRESSED, modifier := r.modifier, key_code := K1 }] ∧
    (hid_host_keyboard_report_callback
        { st with prev_keys := Function.update (fun _ => 0) a K1 }
        { r with key := fun _ => 0 } length).2 =
      [{ state := .KEY_STATE_RELEASED, modifier := 0, key_code := K1 }] := by
  refine ⟨?_, ?_⟩
  · rw [report_callback_eq _ _ length hlen]
    exact report_events_press_one K1 r.modifier r.reserved a h1
  · rw [report_callback_eq _ _ length hlen]
    exact report_events_release_one K1 r.modifier r.reserved a h1

/-- Witness for C12: key code 4 in slot 3, modifier 2, length 8. -/
theorem report_single_key_witness :
    FullLength 8 ∧ 4 > HID_KEY_ERROR_UNDEFINED ∧
    (hid_host_keyboard_report_callback { AppState.initial with prev_keys := fun _ => 0 }
        { modifier := 2, reserved := 0, key := Function.update (fun _ => 0) 3 4 } 8).2 =
      [{ state := .KEY_STATE_PRESSED, modifier := 2, key_code := 4 }] ∧
    (hid_host_keyboard_report_callback
        { AppState.initial with prev_keys := Function.update (fun _ => 0) 3 4 }
        { modifier := 2, reserved := 0, key := fun _ => 0 } 8).2 =
      [{ state := .KEY_STATE_RELEASED, modifier := 0, key_code := 4 }] :=
  ⟨by decide, by decide,
    report_single_key AppState.initial { modifier := 2, reserved := 0, key := fun _ => 0 } 8 4 3
      (by decide) (by decide)⟩

/-- C13: the undefined sentinel is never emitted. For every previous key array, every report
and every length, each event the callback dispatches has a key code above
`HID_KEY_ERROR_UNDEFINED`: the codes `0` (no press), `1` (roll-over), `2` (POST fail) and `3`
(undefined) never reach `key_event_callback`. -/
theorem report_no_sentinel_event (st : AppState) (r : hid_keyboard_input_report_boot_t)
    (length : Int) :
    ∀ e ∈ (hid_host_keyboard_report_callback st r length).2,
      ¬ e.key_code ≤ HID_KEY_ERROR_UNDEFINED ∧
      e.key_code ≠ 0 ∧ e.key_code ≠ 1 ∧ e.key_code ≠ 2 ∧ e.key_code ≠ 3 := by
  intro e he
  have hm := report_callback_events_mem st r length e he
  have hk : e.key_code > HID_KEY_ERROR_UNDEFINED := by
    rcases (mem_report_events st.prev_keys r e).mp hm with ⟨_, _, h, _⟩ | ⟨_, _, h, _⟩
    · exact h
    · exact h
  unfold HID_KEY_ERROR_UNDEFINED at hk ⊢
  omega

/-- C17: after the callback has processed a report of full length, the stored previous
snapshot is the report's key array, whatever the earlier snapshot was; the events of the next
call are those of any state whose snapshot is this key array, so nothing older enters. -/
theorem report_replaces_snapshot (st : AppState) (r : hid_keyboard_input_report_boot_t)
    (length : Int) (hlen : FullLength length) :
    (hid_host_keyboard_report_callback st r length).1.prev_keys = r.key ∧
    ∀ (st2 : AppState) (r2 : hid_keyboard_input_report_boot_t) (length2 : Int),
      st2.prev_keys = r.key →
      (hid_host_keyboard_report_callback
        (hid_host_keyboard_report_callback st r length).1 r2 length2).2 =
      (hid_host_keyboard_report_callback st2 r2 length2).2 := by
  have h := prev_keys_after_report st r length hlen
  refine ⟨h, fun st2 r2 length2 h2 => ?_⟩
  exact report_callback_events_congr _ st2 r2 length2 (h.trans h2.symm)

/-- Witness for C17: the snapshot `{4,5}` is replaced by the report's `{5,6}`. -/
theorem report_replaces_snapshot_witness :
    FullLength 8 ∧
    (hid_host_keyboard_report_callback
        { AppState.initial with prev_keys := ![4, 5, 0, 0, 0, 0] }
        { modifier := 0, reserved := 0, key := ![5, 6, 0, 0, 0, 0] } 8).1.prev_keys =
      ![5, 6, 0, 0, 0, 0] :=
  ⟨by decide,
    (report_replaces_snapshot { AppState.initial with prev_keys := ![4, 5, 0, 0, 0, 0] }
      { modifier := 0, reserved := 0, key := ![5, 6, 0, 0, 0, 0] } 8 (by decide)).1⟩

/-- Witness for C13: of the codes `3` and `4` that leave and `1` and `6` that arrive, only
`4` and `6` give events; the release of `4` is one of them and its code is above the
sentinel. -/
theorem report_no_sentinel_event_witness :
    (hid_host_keyboard_report_callback
        { AppState.initial with prev_keys := ![3, 4, 0, 0, 0, 0] }
        { modifier := 0, reserved := 0, key := ![1, 6, 0, 0, 0, 0] } 8).2 =
      [{ state := .KEY_STATE_RELEASED, modifier := 0, key_code := 4 },
       { state := .KEY_STATE_PRESSED, modifier := 0, key_code := 6 }] ∧
    ¬ (4 : Nat) ≤ HID_KEY_ERROR_UNDEFINED :=
  ⟨by decide,
    (report_no_sentinel_event { AppState.initial with prev_keys := ![3, 4, 0, 0, 0, 0] }
      { modifier := 0, reserved := 0, key := ![1, 6, 0, 0, 0, 0] } 8
      { state := .KEY_STATE_RELEASED, modifier := 0, key_code := 4 } (by decide)).1⟩

/-! ## Input translator: claims -/

/-- C14: for each softkey `i` and every prior state, `key_event_callback` with a Pressed
event for `HID_KEY_i` sets `s_hal_softkey_i` to true and with a Released event sets it to
false; the other three softkey bits keep their values. When `app_main` has registered its
pins (every `ESP_ERROR_CHECK` passed) over distinct static variables, `hal_get_bit` on the
pin that `hal_find_pin` returns for `pendant.softkey.i` reads the new value. -/
theorem softkey_event_sets_bit (L : AppLayout) (alloc : Fin 5 → Bool × Bool)
    (s_pin_head reg : Registry) (base : Mem) (st : AppState) (modifier : Nat) (i : Fin 4)
    (hL : L.WellFormed) (hreg : app_main_hal L alloc s_pin_head = some reg) :
    (key_event_callback st
      { state := .KEY_STATE_PRESSED, modifier := modifier, key_code := softkey_code i }).softkey i
        = true ∧
    (key_event_callback st
      { state := .KEY_STATE_RELEASED, modifier := modifier, key_code := softkey_code i }).softkey i
        = false ∧
    (∀ j, j ≠ i →
      (key_event_callback st
        { state := .KEY_STATE_PRESSED, modifier := modifier,
          key_code := softkey_code i }).softkey j = st.softkey j ∧
      (key_event_callback st
        { state := .KEY_STATE_RELEASED, modifier := modifier,
          key_code := softkey_code i }).softkey j = st.softkey j) ∧
    hal_get_bit (hal_find_pin reg (softkey_name i))
      ((key_event_callback st
        { state := .KEY_STATE_PRESSED, modifier := modifier,
          key_code := softkey_code i }).mem L base) = true ∧
    hal_get_bit (hal_find_pin reg (softkey_name i))
      ((key_event_callback st
        { state := .KEY_STATE_RELEASED, modifier := modifier,
          key_code := softkey_code i }).mem L base) = false := by
  have hinj : ∀ j, j ≠ i → softkey_code i ≠ softkey_code j := by
    intro j hj h
    apply hj
    revert h
    fin_cases i <;> fin_cases j <;> decide
  refine ⟨?_, ?_, ?_, ?_, ?_⟩
  · rw [softkey_key_event_callback]; simp
  · rw [softkey_key_event_callback]; simp
  · intro j hj
    rw [softkey_key_event_callback, softkey_key_event_callback]
    simp [hinj j hj]
  · rw [hal_get_bit_softkey hreg hL, softkey_key_event_callback]; simp
  · rw [hal_get_bit_softkey hreg hL, softkey_key_event_callback]; simp

/-- Witness for C14: the variables lie at 16, 17, 18, 19 and 20..23, every allocation
succeeds, and key `2` is pressed in the initial state: `pendant.softkey.2` reads true. -/
theorem softkey_event_sets_bit_witness :
    AppLayout.WellFormed
      { addr_softkey_1 := 16, addr_softkey_2 := 17, addr_softkey_3 := 18, addr_softkey_4 := 19,
        addr_last_keycode := 20 } ∧
    (app_main_hal
      { addr_softkey_1 := 16, addr_softkey_2 := 17, addr_softkey_3 := 18, addr_softkey_4 := 19,
        addr_last_keycode := 20 } (fun _ => (true, true)) []).isSome = true ∧
    (key_event_callback AppState.initial
      { state := .KEY_STATE_PRESSED, modifier := 0, key_code := HID_KEY_2 }).s_hal_softkey_2
        = true :=
  ⟨by decide, by decide,
    (softkey_event_sets_bit
      { addr_softkey_1 := 16, addr_softkey_2 := 17, addr_softkey_3 := 18, addr_softkey_4 := 19,
        addr_last_keycode := 20 } (fun _ => (true, true)) []
      ((app_main_hal
        { addr_softkey_1 := 16, addr_softkey_2 := 17, addr_softkey_3 := 18,
          addr_softkey_4 := 19, addr_last_keycode := 20 } (fun _ => (true, true)) []).get
        (by decide))
      (fun _ => 0) AppState.initial 0 1 (by decide) (by simp)).1⟩

/-- C15 counterexample: in the initial state, where the last key code is `0`, a Pressed
event for the unmapped code `4` leaves `s_hal_last_keycode` at `4`: the storage of the
signal `hw.kb.last_keycode` has changed. -/
theorem unmapped_key_counterexample :
    (4 : Nat) ≠ HID_KEY_1 ∧ (4 : Nat) ≠ HID_KEY_2 ∧ (4 : Nat) ≠ HID_KEY_3 ∧
    (4 : Nat) ≠ HID_KEY_4 ∧
    (key_event_callback AppState.initial
      { state := .KEY_STATE_PRESSED, modifier := 0, key_code := 4 }).s_hal_last_keycode = 4 ∧
    (key_event_callback AppState.initial
      { state := .KEY_STATE_PRESSED, modifier := 0, key_code := 4 }).s_hal_last_keycode ≠
      AppState.initial.s_hal_last_keycode := by
  decide

/-- C15 as amended: for every event, Pressed or Released, whose key code is none of
`HID_KEY_1` .. `HID_KEY_4` and every prior state, `key_event_callback` leaves the four
softkey bits unchanged and stores the event's key code in `s_hal_last_keycode`, the storage
of `hw.kb.last_keycode`. -/
theorem unmapped_key_frame (st : AppState) (e : key_event_t)
    (h1 : e.key_code ≠ HID_KEY_1) (h2 : e.key_code ≠ HID_KEY_2)
    (h3 : e.key_code ≠ HID_KEY_3) (h4 : e.key_code ≠ HID_KEY_4) :
    (key_event_callback st e).s_hal_softkey_1 = st.s_hal_softkey_1 ∧
    (key_event_callback st e).s_hal_softkey_2 = st.s_hal_softkey_2 ∧
    (key_event_callback st e).s_hal_softkey_3 = st.s_hal_softkey_3 ∧
    (key_event_callback st e).s_hal_softkey_4 = st.s_hal_softkey_4 ∧
    (key_event_callback st e).s_hal_last_keycode = (e.key_code : Int) := by
  cases hs : e.state <;> simp [key_event_callback, hs, h1, h2, h3, h4]

/-- Witness for the amended C15: a Released event for code `4` with softkey 3 on. -/
theorem unmapped_key_frame_witness :
    (4 : Nat) ≠ HID_KEY_1 ∧
    (key_event_callback
      { AppState.initial with s_hal_softkey_3 := true, s_hal_last_keycode := 32 }
      { state := .KEY_STATE_RELEASED, modifier := 0, key_code := 4 }).s_hal_softkey_3 = true ∧
    (key_event_callback
      { AppState.initial with s_hal_softkey_3 := true, s_hal_last_keycode := 32 }
      { state := .KEY_STATE_RELEASED, modifier := 0, key_code := 4 }).s_hal_last_keycode = 4 :=
  ⟨by decide,
    (unmapped_key_frame
      { AppState.initial with s_hal_softkey_3 := true, s_hal_last_keycode := 32 }
      { state := .KEY_STATE_RELEASED, modifier := 0, key_code := 4 }
      (by decide) (by decide) (by decide) (by decide)).2.2.1,
    (unmapped_key_frame
      { AppState.initial with s_hal_softkey_3 := true, s_hal_last_keycode := 32 }
      { state := .KEY_STATE_RELEASED, modifier := 0, key_code := 4 }
      (by decide) (by decide) (by decide) (by decide)).2.2.2.2⟩

/-! ## Registry frame, event loop, report sequences, accessor round trip: claims -/

/-- C16: a successful registration adds exactly one binding and touches no other. For every
registry state, when `hal_create_pin(name, kind, ptr, dir)` returns `ESP_OK`, the new
registry is the old one with one pin put in front; `hal_find_pin(name)` returns a pin with
exactly that kind, storage pointer and direction flags; and for every other name
`hal_find_pin` returns what it returned before the call, a pin or NULL. -/
theorem hal_create_pin_frame (st : Registry) (name : List Nat) (type : hal_type_t)
    (data_ptr dir : Nat) (m s : Bool)
    (hok : (hal_create_pin m s st (some name) type data_ptr dir).1 = ESP_OK) :
    (hal_create_pin m s st (some name) type data_ptr dir).2 =
      { name := strdup name, type := type, data_ptr := data_ptr, flags := dir } :: st ∧
    hal_find_pin (hal_create_pin m s st (some name) type data_ptr dir).2 name =
      some { name := strdup name, type := type, data_ptr := data_ptr, flags := dir } ∧
    (∀ other, strcmp name other ≠ 0 →
      hal_find_pin (hal_create_pin m s st (some name) type data_ptr dir).2 other =
        hal_find_pin st other) := by
  rcases hal_create_pin_snd_cases m s st (some name) type data_ptr dir with
    ⟨h1, _⟩ | ⟨n, hn, _, _, h2⟩
  · exact absurd hok h1
  · cases hn
    rw [h2]
    refine ⟨rfl, ?_, ?_⟩
    · rw [hal_find_pin_cons, if_pos ((strcmp_strdup_left name name).mpr
        ((strcmp_eq_zero_iff name name).mpr rfl))]
    · intro other hne
      rw [hal_find_pin_cons, if_neg (fun h => hne ((strcmp_strdup_left name other).mp h))]

/-- Witness for C16: `"b"` is registered as a float at 32 on a registry that holds `"a"`;
`"b"` is found with these attributes and `"a"` is found as before. -/
theorem hal_create_pin_frame_witness :
    (hal_create_pin true true [{ name := [97], type := .HAL_BIT, data_ptr := 16, flags := 3 }]
      (some [98]) .HAL_FLOAT 32 1).1 = ESP_OK ∧
    hal_find_pin
      (hal_create_pin true true [{ name := [97], type := .HAL_BIT, data_ptr := 16, flags := 3 }]
        (some [98]) .HAL_FLOAT 32 1).2 [98] =
      some { name := strdup [98], type := .HAL_FLOAT, data_ptr := 32, flags := 1 } ∧
    hal_find_pin
      (hal_create_pin true true [{ name := [97], type := .HAL_BIT, data_ptr := 16, flags := 3 }]
        (some [98]) .HAL_FLOAT 32 1).2 [97] =
      hal_find_pin [{ name := [97], type := .HAL_BIT, data_ptr := 16, flags := 3 }] [97] :=
  ⟨by decide,
    (hal_create_pin_frame [{ name := [97], type := .HAL_BIT, data_ptr := 16, flags := 3 }]
      [98] .HAL_FLOAT 32 1 true true (by decide)).2.1,
    (hal_create_pin_frame [{ name := [97], type := .HAL_BIT, data_ptr := 16, flags := 3 }]
      [98] .HAL_FLOAT 32 1 true true (by decide)).2.2 [97] (by decide)⟩

/-- C18: the deliveries of the queue are a sequence of envelopes, finite (a list) or infinite
(a function on the naturals, of which the loop sees a prefix). When `c` is the first
cancellation envelope, after the deliveries `pre`, the loop makes exactly the
`hid_host_device_event` calls of the lifecycle envelopes of `pre`, in delivery order, and
leaves at `c`, whatever is delivered after it; before `c` arrives it has made the same calls
and has not left. Every envelope of `pre` is a lifecycle envelope, so each is forwarded. For
an infinite sequence whose first cancellation has index `k`, every longer prefix gives the
calls of the first `k` deliveries and an exit. -/
theorem app_main_loop_spec (pre post : List (Option app_event_queue_t))
    (c : Option app_event_queue_t) (hpre : ∀ d ∈ pre, is_cancel d = false)
    (hc : is_cancel c = true) :
    app_main_loop (pre ++ c :: post) = (lifecycle_calls pre, true) ∧
    app_main_loop pre = (lifecycle_calls pre, false) ∧
    lifecycle_calls pre = pre.filterMap (fun d => d.map forward) ∧
    (∀ (deliveries : Nat → Option app_event_queue_t) (k n : Nat),
      (∀ j, j < k → is_cancel (deliveries j) = false) → is_cancel (deliveries k) = true →
      k < n →
      app_main_loop ((List.range n).map deliveries) =
        (lifecycle_calls ((List.range k).map deliveries), true)) := by
  refine ⟨app_main_loop_cancel pre post c hpre hc, app_main_loop_no_cancel pre hpre, ?_, ?_⟩
  · unfold lifecycle_calls
    apply List.filterMap_congr
    intro d hd
    have hcan := hpre d hd
    cases d with
    | none => rfl
    | some evt =>
      have hne : evt.event_group ≠ .APP_EVENT := by simpa [is_cancel] using hcan
      have hh : evt.event_group = .APP_EVENT_HID_HOST := by
        cases hg : evt.event_group with
        | APP_EVENT => exact absurd hg hne
        | APP_EVENT_HID_HOST => rfl
      simp [hh]
  · intro deliveries k n hk hck hkn
    rw [range_map_split deliveries k n hkn]
    apply app_main_loop_cancel _ _ _ _ hck
    intro d hd
    obtain ⟨j, hj, rfl⟩ := List.mem_map.mp hd
    exact hk j (List.mem_range.mp hj)

/-- Witness for C18: a connect notification, the cancellation, then a second notification
that is never forwarded. -/
theorem app_main_loop_spec_witness :
    app_main_loop
      ([some { event_group := .APP_EVENT_HID_HOST, handle := 7, event := 0, arg := 0 }] ++
        some { event_group := .APP_EVENT, handle := 0, event := 0, arg := 0 } ::
        [some { event_group := .APP_EVENT_HID_HOST, handle := 9, event := 0, arg := 0 }]) =
      ([{ handle := 7, event := 0, arg := 0 }], true) :=
  (app_main_loop_spec
    [some { event_group := .APP_EVENT_HID_HOST, handle := 7, event := 0, arg := 0 }]
    [some { event_group := .APP_EVENT_HID_HOST, handle := 9, event := 0, arg := 0 }]
    (some { event_group := .APP_EVENT, handle := 0, event := 0, arg := 0 })
    (by decide) (by decide)).1

/-- C19: the softkey bits track the held keys. From the initial state (snapshot all zero,
the four bits false), after any finite sequence of reports whose lengths are byte counts
(non-negative `int` values) and of which `r` is the most recent one of full length, softkey
bit `i` is true exactly when `HID_KEY_i` occurs in the key array of `r`. A report shorter
than the boot report changes nothing and dispatches nothing. -/
theorem softkeys_track_held_keys
    (reports : List (hid_keyboard_input_report_boot_t × Int))
    (r : hid_keyboard_input_report_boot_t)
    (hval : ∀ p ∈ reports, ValidLength p.2)
    (hlast : last_full_report none reports = some r) :
    ((run_reports AppState.initial reports).s_hal_softkey_1 = true ↔ Occurs r.key HID_KEY_1) ∧
    ((run_reports AppState.initial reports).s_hal_softkey_2 = true ↔ Occurs r.key HID_KEY_2) ∧
    ((run_reports AppState.initial reports).s_hal_softkey_3 = true ↔ Occurs r.key HID_KEY_3) ∧
    ((run_reports AppState.initial reports).s_hal_softkey_4 = true ↔ Occurs r.key HID_KEY_4) ∧
    (∀ (st : AppState) (r2 : hid_keyboard_input_report_boot_t) (length : Int),
      ValidLength length → length < (sizeof_hid_keyboard_input_report_boot_t : Int) →
      hid_host_keyboard_report_callback st r2 length = (st, [])) := by
  obtain ⟨hinv, hprev⟩ := run_reports_track reports AppState.initial none hval
    softkey_initial (fun _ h => by cases h)
  have hk := hprev r hlast
  have hbit : ∀ i, (run_reports AppState.initial reports).softkey i = true ↔
      Occurs r.key (softkey_code i) := by
    intro i
    rw [hinv i, hk]
    exact key_found_iff r.key (softkey_code i)
  refine ⟨hbit 0, hbit 1, hbit 2, hbit 3, ?_⟩
  intro st r2 length hv hshort
  exact report_callback_short st r2 length (short_of_valid hv (not_le.mpr hshort))

/-- Witness for C19: a report holding keys `1` and `2`, a short report holding key `3`, then
no further full report: softkey 1 is on and softkey 3 is off. -/
theorem softkeys_track_held_keys_witness :
    (∀ p ∈ [(({ modifier := 0, reserved := 0, key := ![30, 31, 0, 0, 0, 0] } :
                hid_keyboard_input_report_boot_t), (8 : Int)),
            ({ modifier := 0, reserved := 0, key := ![32, 0, 0, 0, 0, 0] }, 7)],
        ValidLength p.2) ∧
    ((run_reports AppState.initial
      [({ modifier := 0, reserved := 0, key := ![30, 31, 0, 0, 0, 0] }, 8),
       ({ modifier := 0, reserved := 0, key := ![32, 0, 0, 0, 0, 0] }, 7)]).s_hal_softkey_1 = true ↔
      Occurs ![30, 31, 0, 0, 0, 0] HID_KEY_1) ∧
    (run_reports AppState.initial
      [({ modifier := 0, reserved := 0, key := ![30, 31, 0, 0, 0, 0] }, 8),
       ({ modifier := 0, reserved := 0, key := ![32, 0, 0, 0, 0, 0] }, 7)]).s_hal_softkey_1 = true ∧
    (run_reports AppState.initial
      [({ modifier := 0, reserved := 0, key := ![30, 31, 0, 0, 0, 0] }, 8),
       ({ modifier := 0, reserved := 0, key := ![32, 0, 0, 0, 0, 0] }, 7)]).s_hal_softkey_3 =
        false :=
  ⟨by intro p hp
      simp only [List.mem_cons, List.mem_singleton, List.not_mem_nil, or_false] at hp
      rcases hp with rfl | rfl <;> decide,
    (softkeys_track_held_keys
      [({ modifier := 0, reserved := 0, key := ![30, 31, 0, 0, 0, 0] }, 8),
       ({ modifier := 0, reserved := 0, key := ![32, 0, 0, 0, 0, 0] }, 7)]
      { modifier := 0, reserved := 0, key := ![30, 31, 0, 0, 0, 0] }
      (by intro p hp
          simp only [List.mem_cons, List.mem_singleton, List.not_mem_nil, or_false] at hp
          rcases hp with rfl | rfl <;> decide)
      rfl).1,
    by decide, by decide⟩

/-- C20: set/get round trip. For every pin of kind `HAL_BIT` with non-NULL storage, whatever
its direction flags, and every Boolean `v`, `hal_set_bit` followed by `hal_get_bit` returns
`v`; every byte at another address is unchanged, so a bit pin bound to another address and a
float pin whose four bytes lie elsewhere read what they read before. For every pin of kind
`HAL_FLOAT` with non-NULL storage and every 32-bit float representation `x`, `hal_set_float`
followed by `hal_get_float` returns `x`, and every byte outside the four written is
unchanged. -/
theorem accessor_round_trip (pinB pinF : hal_pin_t) (v : Bool) (x : float32) (mem : Mem)
    (hB : pinB.type = .HAL_BIT) (hBp : pinB.data_ptr ≠ 0)
    (hF : pinF.type = .HAL_FLOAT) (hFp : pinF.data_ptr ≠ 0) (hx : x < 4294967296) :
    hal_get_bit (some pinB) (hal_set_bit (some pinB) v mem) = v ∧
    (∀ a, a ≠ pinB.data_ptr → hal_set_bit (some pinB) v mem a = mem a) ∧
    (∀ q : hal_pin_t, q.data_ptr ≠ pinB.data_ptr →
      hal_get_bit (some q) (hal_set_bit (some pinB) v mem) = hal_get_bit (some q) mem) ∧
    (∀ q : hal_pin_t, (q.data_ptr + 4 ≤ pinB.data_ptr ∨ pinB.data_ptr < q.data_ptr) →
      hal_get_float (some q) (hal_set_bit (some pinB) v mem) = hal_get_float (some q) mem) ∧
    hal_get_float (some pinF) (hal_set_float (some pinF) x mem) = x ∧
    (∀ a, (a < pinF.data_ptr ∨ pinF.data_ptr + 4 ≤ a) →
      hal_set_float (some pinF) x mem a = mem a) := by
  have hframe : ∀ a, a ≠ pinB.data_ptr → hal_set_bit (some pinB) v mem a = mem a := by
    intro a ha
    simp [hal_set_bit, hB, hBp, Function.update_apply, ha]
  refine ⟨?_, hframe, ?_, ?_, ?_, ?_⟩
  · cases v <;> simp [hal_get_bit, hal_set_bit, hB, hBp]
  · intro q hq
    simp only [hal_get_bit, hframe q.data_ptr hq]
  · intro q hq
    simp only [hal_get_float, load32, hframe q.data_ptr (by omega),
      hframe (q.data_ptr + 1) (by omega), hframe (q.data_ptr + 2) (by omega),
      hframe (q.data_ptr + 3) (by omega)]
  · simp only [hal_get_float, hal_set_float, hF, hFp, ne_eq, not_false_eq_true, and_self,
      if_true]
    exact load32_store32 mem pinF.data_ptr x hx
  · intro a ha
    have hno : ¬ (pinF.data_ptr ≤ a ∧ a < pinF.data_ptr + 4) := by omega
    simp [hal_set_float, hF, hFp, store32, hno]

/-- Witness for C20: a bit pin at address 16 with flags `HAL_IN`, a float pin at address 32,
the value `1.0f` (`0x3F800000`), over a memory of zeros. -/
theorem accessor_round_trip_witness :
    hal_get_bit (some { name := [98], type := .HAL_BIT, data_ptr := 16, flags := HAL_IN })
      (hal_set_bit (some { name := [98], type := .HAL_BIT, data_ptr := 16, flags := HAL_IN })
        true (fun _ => 0)) = true ∧
    hal_get_float (some { name := [102], type := .HAL_FLOAT, data_ptr := 32, flags := 0 })
      (hal_set_float (some { name := [102], type := .HAL_FLOAT, data_ptr := 32, flags := 0 })
        1065353216 (fun _ => 0)) = 1065353216 :=
  ⟨(accessor_round_trip { name := [98], type := .HAL_BIT, data_ptr := 16, flags := HAL_IN }
      { name := [102], type := .HAL_FLOAT, data_ptr := 32, flags := 0 } true 1065353216
      (fun _ => 0) rfl (by decide) rfl (by decide) (by decide)).1,
    (accessor_round_trip { name := [98], type := .HAL_BIT, data_ptr := 16, flags := HAL_IN }
      { name := [102], type := .HAL_FLOAT, data_ptr := 32, flags := 0 } true 1065353216
      (fun _ => 0) rfl (by decide) rfl (by decide) (by decide)).2.2.2.2.1⟩

end Pendant
